import Mathlib

/-!
Verification of `src/pickup_splitter_with_printqty_log.py`.

This file gives a shallow embedding, in Lean 4, of the pure computational
core of the pickup-splitter program: key normalisation, fuzzy factory
matching, row classification and supplier grouping, the carton-quantity
fallback chains, configuration loading, template-sheet rebuilding with
formula translation, and the FBA-id extraction used by the label sub-flow.
Spreadsheet cells are modelled by an explicit value type, dataframes by
association lists from column names to cell values, and worksheets by lists
of rows of cell values.  Each embedded definition mirrors the corresponding
Python function; theorems at the end of the file settle the specification
claims against these definitions.
-/

namespace PickupSplitter

/-! ## Basic Python string primitives -/

/-- Whitespace characters recognised by Python's `str.strip()` that can occur
in this program's data: ASCII whitespace, NBSP, and the full-width
(ideographic) space U+3000. -/
def pyWsChars : List Char := [' ', '\t', '\n', '\r', '\x0b', '\x0c', ' ', '　']

/-- Boolean test for the whitespace set of `pyWsChars`. -/
def pyIsWs (c : Char) : Bool := pyWsChars.contains c

/-- Characters of `str.strip()`: drop leading and trailing whitespace. -/
def pyStripChars (cs : List Char) : List Char :=
  ((cs.dropWhile pyIsWs).reverse.dropWhile pyIsWs).reverse

/-- Python `str.strip()`. -/
def pyStrip (s : String) : String := ⟨pyStripChars s.data⟩

/-- Python `str.lower()` (ASCII letters; other characters unchanged, which is
accurate for the Chinese headers appearing in this program). -/
def pyLower (s : String) : String := ⟨s.data.map Char.toLower⟩

/-- Python `str.upper()` (ASCII letters; other characters unchanged). -/
def pyUpper (s : String) : String := ⟨s.data.map Char.toUpper⟩

/-- Boolean list-"starts with" (used to build the substring test). -/
def isPreB [DecidableEq α] : List α → List α → Bool
  | [], _ => true
  | _ :: _, [] => false
  | a :: as, b :: bs => a == b && isPreB as bs

/-- Boolean list-infix test: does the first list occur contiguously inside
the second? -/
def isInfB [DecidableEq α] : List α → List α → Bool
  | n, [] => isPreB n []
  | n, b :: bs => isPreB n (b :: bs) || isInfB n bs

/-- Python's substring containment `needle in hay`. -/
def subStrB (needle hay : String) : Bool := isInfB needle.data hay.data

/-- Suffix test on character lists. -/
def endsWithL (cs suf : List Char) : Bool := isPreB suf.reverse cs.reverse

/-! ## `norm_key` (Key Normalizer) -/

/-- The punctuation/bracket characters removed by `norm_key`'s character
class `[（）()【】\[\]{}<>《》“”"'`·•,，.。:：;；\-_—/\\|]`. -/
def punctChars : List Char :=
  ['（', '）', '(', ')', '【', '】', '[', ']', Char.ofNat 0x7b, Char.ofNat 0x7d,
   '<', '>', '《', '》', '“', '”', '"', Char.ofNat 39, Char.ofNat 96, '·', '•',
   ',', '，', '.', '。', ':', '：', ';', '；', '-', '_', '—', '/', '\\', '|']

/-- The ordered alternation of legal-entity suffixes stripped (once, at the
end of the string) by `norm_key` and `supplier_short_name`. -/
def legalSuffixes : List String :=
  ["有限责任公司", "股份有限公司", "有限公司", "实业有限公司", "实业",
   "科技有限公司", "科技", "电器有限公司", "电器", "智能电器有限公司", "智能",
   "生物科技有限公司", "生物科技", "电子有限公司", "电子", "制造有限公司", "制造",
   "贸易有限公司", "贸易"]

/-- The suffix that Python's `re.sub(r'(alt1|alt2|...)$', "", x)` removes: the
leftmost match position wins, i.e. the longest alternative that is a suffix
of the string. -/
def bestSuffixMatch (cs : List Char) : Option (List Char) :=
  legalSuffixes.foldl
    (fun acc s =>
      let sd := s.data
      if endsWithL cs sd then
        match acc with
        | none => some sd
        | some b => if sd.length > b.length then some sd else some b
      else acc)
    none

/-- Remove the legal-entity suffix matched by the anchored alternation. -/
def dropLegalSuffix (cs : List Char) : List Char :=
  match bestSuffixMatch cs with
  | none => cs
  | some sd => cs.take (cs.length - sd.length)

/-- Embedding of `norm_key`: strip, remove spaces (ASCII and full-width),
remove the punctuation class, strip one trailing legal-entity suffix. -/
def norm_key (s : String) : String :=
  let x := pyStripChars s.data
  let x := x.filter (fun c => !(c == ' ' || c == '　'))
  let x := x.filter (fun c => !(punctChars.contains c))
  ⟨dropLegalSuffix x⟩

/-! ## Fuzzy matchers (`fuzzy_factory_address`, `fuzzy_factory_name`)

The factory map `factory_name_to_addr` is a Python dict; it is embedded as an
association list in insertion order, which is the iteration order of
`dict.items()`. -/

/-- The score computed for one (key, factory) pair inside
`fuzzy_factory_address`: containment in either direction, scored by the
length of the contained normalized string. -/
def addrScore (nk nn : String) : Nat :=
  if subStrB nk nn then nk.length
  else if subStrB nn nk then nn.length
  else 0

/-- One step of the inner loop of `fuzzy_factory_address`: the running best
is a triple (name, score, addr) and is replaced only on a strictly greater
score. -/
def addrStep (nk : String) (best : String × Nat × String)
    (it : String × String × String) : String × Nat × String :=
  if addrScore nk it.2.1 > best.2.1 then (it.1, addrScore nk it.2.1, it.2.2) else best

/-- The score computed for one (key, factory) pair inside
`fuzzy_factory_name`: exact normalized equality scores 1000 plus the key's
length, otherwise containment as in `addrScore`. -/
def nameScore (nk nn : String) : Nat :=
  if nk = nn then 1000 + nk.length
  else if subStrB nk nn then nk.length
  else if subStrB nn nk then nn.length
  else 0

/-- One step of the inner loop of `fuzzy_factory_name`: the running best is
a pair (name, score), replaced only on a strictly greater score. -/
def nameStep (nk : String) (best : String × Nat)
    (it : String × String × String) : String × Nat :=
  if nameScore nk it.2.1 > best.2 then (it.1, nameScore nk it.2.1) else best

/-- Embedding of `fuzzy_factory_address`. -/
def fuzzy_factory_address (keys : List String)
    (factory_name_to_addr : List (String × String)) : String :=
  if factory_name_to_addr.isEmpty then ""
  else
    let fac_items := factory_name_to_addr.map (fun p => (p.1, norm_key p.1, p.2))
    let best := keys.foldl
      (fun best key =>
        let nk := norm_key key
        if nk = "" ∨ nk.length < 2 then best
        else fac_items.foldl (addrStep nk) best)
      ("", 0, "")
    if best.2.1 > 0 then best.2.2 else ""

/-- Embedding of `fuzzy_factory_name`. -/
def fuzzy_factory_name (keys : List String)
    (factory_name_to_addr : List (String × String)) : String :=
  if factory_name_to_addr.isEmpty then ""
  else
    let fac_items := factory_name_to_addr.map (fun p => (p.1, norm_key p.1, p.2))
    let best := keys.foldl
      (fun best key =>
        let nk := norm_key key
        if nk = "" ∨ nk.length < 2 then best
        else fac_items.foldl (nameStep nk) best)
      ("", 0)
    if best.2 > 0 then best.1 else ""

/-! ### Specification-side formulation of the fuzzy matchers (for claim C5) -/

/-- Claim-side scoring for the name variant: exact normalized equality scores
1000 plus the key's length; otherwise containment in either direction scores
the length of the contained string. -/
def scoreNameSpec (nk nn : String) : Nat :=
  if nk = nn then 1000 + nk.length
  else if subStrB nk nn then nk.length
  else if subStrB nn nk then nn.length
  else 0

/-- Claim-side scoring for the address variant: no equality bonus, only
containment in either direction scored by the contained string's length. -/
def scoreAddrSpec (nk nn : String) : Nat :=
  if subStrB nk nn then nk.length
  else if subStrB nn nk then nn.length
  else 0

/-- All (key, factory-entry) pairs in encounter order, keys whose normalized
form is shorter than 2 characters skipped — as the claim describes. -/
def keyPairs (keys : List String) (m : List (String × String)) :
    List (String × String × String) :=
  (keys.filter (fun k => 2 ≤ (norm_key k).length)).flatMap
    (fun k => m.map (fun e => (k, e.1, e.2)))

/-- Claim-side update for the name variant: keep the highest-scoring pair,
ties keeping the first encountered (strict improvement only). -/
def specNameStep (b : String × Nat) (p : String × String × String) : String × Nat :=
  if scoreNameSpec (norm_key p.1) (norm_key p.2.1) > b.2 then
    (p.2.1, scoreNameSpec (norm_key p.1) (norm_key p.2.1))
  else b

/-- Claim-side update for the address variant. -/
def specAddrStep (b : String × Nat) (p : String × String × String) : String × Nat :=
  if scoreAddrSpec (norm_key p.1) (norm_key p.2.1) > b.2 then
    (p.2.2, scoreAddrSpec (norm_key p.1) (norm_key p.2.1))
  else b

/-- Claim-side fuzzy name matcher: highest-scoring pair wins, ties keep the
first encountered, empty string when no pair scores positively. -/
def spec_fuzzy_name (keys : List String) (m : List (String × String)) : String :=
  let best := (keyPairs keys m).foldl specNameStep ("", 0)
  if best.2 > 0 then best.1 else ""

/-- Claim-side fuzzy address matcher. -/
def spec_fuzzy_address (keys : List String) (m : List (String × String)) : String :=
  let best := (keyPairs keys m).foldl specAddrStep ("", 0)
  if best.2 > 0 then best.1 else ""

/-! ## Row classification (`process_file`, lines 1357–1363)

`ser = df1[direct_col].astype(str).str.replace(" ", "").str.replace("　", "")`
`df_f = df1[ser.str.contains("工厂直发", na=False)]`
`df_non = df1[~ser.str.contains("工厂直发", na=False)]`

A cell of the direct-shipment-type column is modelled as `Option String`
(`none` = missing/NaN). -/

/-- pandas `astype(str)` on one cell: a missing value (NaN) becomes the
string "nan". -/
def pyAstypeStr : Option String → String
  | none => "nan"
  | some s => s

/-- The normalisation `process_file` applies before the marker test: remove
every ASCII space and every full-width space U+3000 (and nothing else). -/
def stripSpacesFw (s : String) : String :=
  ⟨s.data.filter (fun c => !(c == ' ' || c == '　'))⟩

/-- Embedding of the factory-direct test of `process_file`: the normalised
cell contains the literal marker "工厂直发". -/
def classifyDirect (cell : Option String) : Bool :=
  subStrB "工厂直发" (stripSpacesFw (pyAstypeStr cell))

/-- `df_f`: the factory-direct partition (restricted to the classifying
column's values). -/
def factoryDirectRows (rows : List (Option String)) : List (Option String) :=
  rows.filter classifyDirect

/-- `df_non`: the complementary "other" partition. -/
def otherRows (rows : List (Option String)) : List (Option String) :=
  rows.filter (fun r => !classifyDirect r)

/-- Claim-side normalisation: remove ALL whitespace characters (including
the full-width space), as the claim's words describe. -/
def removeAllWs (s : String) : String := ⟨s.data.filter (fun c => !pyIsWs c)⟩

/-- Claim-side classifier: marker containment after removing all
whitespace. -/
def claimClassifyDirect (cell : Option String) : Bool :=
  subStrB "工厂直发" (removeAllWs (pyAstypeStr cell))

/-! ## Supplier grouping (`process_file`, lines 1387–1399)

`groups = list(df_f.groupby(supplier_col))` uses the pandas defaults
`sort=True` (group keys sorted ascending) and `dropna=True` (rows whose
supplier value is missing are dropped).  A factory-direct row is modelled as
its supplier-column value (`none` = NaN) paired with its position, which
identifies the row. -/

/-- The seen-set deduplication loop (as at the end of
`read_fba_ids_from_split_xlsx`): keep the first occurrence of each value. -/
def dedupSeen [DecidableEq α] (seen : List α) : List α → List α
  | [] => []
  | x :: xs =>
    if x ∈ seen then dedupSeen seen xs
    else x :: dedupSeen (x :: seen) xs

/-- First-occurrence deduplication (the order in which pandas first sees
each distinct key; also the semantics of the seen-set loop). -/
def firstDedup [DecidableEq α] (l : List α) : List α := dedupSeen [] l

/-- Python's `<` on strings (as pandas sorts group keys): lexicographic
comparison by code points, a proper prefix sorting first. -/
def strLtL : List Char → List Char → Bool
  | [], [] => false
  | [], _ :: _ => true
  | _ :: _, [] => false
  | a :: as, b :: bs =>
    if a.toNat < b.toNat then true
    else if b.toNat < a.toNat then false
    else strLtL as bs

/-- Python's `<=` on strings. -/
def pyStrLe (a b : String) : Bool := strLtL a.data b.data || a == b

/-- Embedding of `df_f.groupby(supplier_col)` (pandas defaults): missing
keys dropped, distinct keys sorted ascending, each group holding its rows in
original order. -/
def groupbySupplier (rows : List (Option String × Nat)) :
    List (String × List (Option String × Nat)) :=
  (List.insertionSort (fun a b => pyStrLe a b = true)
      (firstDedup (rows.filterMap Prod.fst))).map
    (fun k => (k, rows.filter (fun r => r.1 = some k)))

/-! ## Cells and dataframes

A spreadsheet / pandas cell is a string, a number, or missing.  Both Python
`None` and pandas `NaN` are modelled by `PVal.none_` (every guard in the
source treats the two alike on the paths embedded here: they stringify to
values caught by the `("nan", "none")` checks or are skipped by
`pd.notna` / `is not None` guards).  Numeric cells are modelled by integers;
`pd.to_numeric(..., errors="coerce")` on a non-numeric cell gives NaN. -/

inductive PVal where
  | s (v : String)
  | n (v : Int)
  | none_
deriving DecidableEq, Repr

/-- Python `str(v)` of a non-missing cell value. -/
def pvalStr : PVal → String
  | .s v => v
  | .n v => toString v
  | .none_ => "nan"

/-- The idiom `str(r.get(col)).strip() if r.get(col) is not None else ""`. -/
def strCell : PVal → String
  | .none_ => ""
  | v => pyStrip (pvalStr v)

/-- `pd.to_numeric(v, errors="coerce")`, `None` on NaN. -/
def pyToNumeric : PVal → Option Int
  | .n v => some v
  | _ => none

/-- `int(float(str(v).strip()))`, `None` when the conversion raises or the
value is missing/blank. -/
def pyToIntTrunc : PVal → Option Int
  | .n v => some v
  | _ => none

/-- Python `math.ceil(s / b)` on numbers, for `b ≠ 0`. -/
def pyCeilDiv (s b : Int) : Int := -((-s).fdiv b)

/-- One dataframe row: cells keyed by column name (`Series.get` semantics:
an absent key behaves like a missing value on the embedded paths). -/
def rowGet (r : List (String × PVal)) (c : String) : PVal :=
  match r.find? (fun p => p.1 == c) with
  | some p => p.2
  | none => .none_

/-- A dataframe: named columns in order, plus rows. -/
structure DF where
  cols : List String
  rows : List (List (String × PVal))

/-- `df.columns = [str(c).strip() for c in df.columns]`: renaming the
columns renames the row keys likewise. -/
def stripDfCols (df : DF) : DF :=
  ⟨df.cols.map pyStrip, df.rows.map (fun r => r.map (fun p => (pyStrip p.1, p.2)))⟩

/-- Python dict assignment `m[k] = v`: an existing key keeps its position
and takes the new value, a new key is appended. -/
def dictInsert (m : List (String × String)) (k v : String) : List (String × String) :=
  if m.any (fun p => p.1 == k) then m.map (fun p => if p.1 == k then (k, v) else p)
  else m ++ [(k, v)]

/-- Python dict lookup (`k in m` / `m.get(k)`); with `dictInsert` each key
occurs at most once, so the first match is the binding. -/
def dictGet (m : List (String × String)) (k : String) : Option String :=
  (m.find? (fun p => p.1 == k)).map Prod.snd

/-! ## Column resolvers (`find_col`, `find_col_exact`,
`choose_best_numeric_col`) -/

/-- Embedding of `find_col`: first pass exact match (candidate-major),
second pass substring containment (candidate-major). -/
def find_col (columns : List String) (candidates : List String) : Option String :=
  let cols := columns.map pyStrip
  match candidates.findSome? (fun pat => cols.find? (fun c => c == pat)) with
  | some c => some c
  | none => candidates.findSome? (fun pat => cols.find? (fun c => subStrB pat c))

/-- Embedding of `find_col_exact`: exact matching only. -/
def find_col_exact (columns : List String) (candidates : List String) : Option String :=
  let cols := columns.map pyStrip
  candidates.findSome? (fun pat => cols.find? (fun c => c == pat))

/-- Embedding of `choose_best_numeric_col`: among columns named `base_name`
or starting with `base_name + "."`, pick the one with the most non-empty
numeric values; the running best starts at count -1, so the first candidate
always wins ties (strict improvement afterwards). -/
def choose_best_numeric_col (df : DF) (base_name : String) : Option String :=
  let cand := df.cols.filter
    (fun c => pyStrip c == base_name || isPreB (base_name ++ ".").data c.data)
  (cand.foldl
    (fun best c =>
      let nn := (df.rows.map (fun r => rowGet r c)).countP
        (fun v => (pyToNumeric v).isSome)
      match best with
      | none => some (c, nn)
      | some b => if nn > b.2 then some (c, nn) else some b)
    none).map Prod.fst

/-- Embedding of `norm_id_value`: None/NaN/blank/"nan" become the empty
string, anything else is stringified and stripped. -/
def norm_id_value : PVal → String
  | .none_ => ""
  | .n k => toString k
  | .s t =>
    let s := pyStrip t
    if s = "" ∨ pyLower s = "nan" then "" else s

/-! ## `sanitize_filename` and `supplier_short_name` -/

/-- The characters of `sanitize_filename`'s class `[\\/:*?"<>|\r\n]`. -/
def sanBadChars : List Char :=
  ['\\', '/', ':', '*', '?', '"', '<', '>', '|', '\r', '\n']

/-- Worker for `collapseRuns`: `inRun` records whether the previous
character belonged to a run being replaced. -/
def collapseRunsGo (bad : Char → Bool) (rep : Char) : Bool → List Char → List Char
  | _, [] => []
  | inRun, c :: cs =>
    if bad c then
      if inRun then collapseRunsGo bad rep true cs
      else rep :: collapseRunsGo bad rep true cs
    else c :: collapseRunsGo bad rep false cs

/-- `re.sub(r'[...]+', rep, s)`: replace each maximal run of matching
characters with the single replacement character. -/
def collapseRuns (bad : Char → Bool) (rep : Char) (cs : List Char) : List Char :=
  collapseRunsGo bad rep false cs

/-- Embedding of `sanitize_filename`. -/
def sanitize_filename (s : String) : String :=
  let s1 := pyStripChars s.data
  let s2 := collapseRuns (fun c => sanBadChars.contains c) '_' s1
  let s3 := collapseRuns pyIsWs ' ' s2
  pyStrip ⟨s3⟩

/-- CJK range `[一-鿿]` of the regexes in `supplier_short_name`. -/
def isCJK (c : Char) : Bool := 0x4e00 ≤ c.toNat && c.toNat ≤ 0x9fff

/-- The region-suffix alternation of `supplier_short_name`'s prefix regex,
in source order. -/
def regionTokens : List String :=
  ["省", "市", "自治区", "自治州", "地区", "盟", "州", "县", "区"]

/-- `re.sub(r'^(?:[一-鿿]{2,7}(?:省|市|...))', '', x)`: anchored at
the start, the greedy counted repetition tries 7 CJK characters first down
to 2, and for each length the region alternatives in order. -/
def dropRegionPre (cs : List Char) : List Char :=
  match ([7, 6, 5, 4, 3, 2] : List Nat).findSome?
    (fun k =>
      if (cs.take k).length = k ∧ (cs.take k).all isCJK then
        regionTokens.findSome?
          (fun t => if isPreB t.data (cs.drop k) then some (k + t.length) else none)
      else none) with
  | some d => cs.drop d
  | none => cs

/-- Worker for `cjkRuns`: `cur` is the current run, reversed. -/
def cjkRunsGo (cur : List Char) : List Char → List (List Char)
  | [] => if cur = [] then [] else [cur.reverse]
  | c :: cs =>
    if isCJK c then cjkRunsGo (c :: cur) cs
    else if cur = [] then cjkRunsGo [] cs
    else cur.reverse :: cjkRunsGo [] cs

/-- `re.findall(r'[一-鿿]+', x)`: the maximal CJK runs. -/
def cjkRuns (cs : List Char) : List (List Char) := cjkRunsGo [] cs

/-- Embedding of `supplier_short_name`. -/
def supplier_short_name (s : Option String) : String :=
  match s with
  | none => "未知供应商"
  | some s0 =>
    let x := pyStripChars s0.data
    let x1 := pyStripChars (dropLegalSuffix x)
    let x2 := pyStripChars (dropRegionPre x1)
    match (cjkRuns x2).getLast? with
    | some t =>
      let t' := if t.length > 6 then t.drop (t.length - 6) else t
      sanitize_filename ⟨t'⟩
    | none => sanitize_filename ⟨x2.take 10⟩

/-! ## Configuration loader (`load_config_xlsx`) -/

/-- One row of the SKU-configuration table (`sku_cfg_df`). -/
structure SkuCfgRow where
  SKU : String
  prodName : String
  lengthV : Option Int
  widthV : Option Int
  heightV : Option Int
  grossWeight : Option Int
  unitsPerCarton : Option Int
deriving DecidableEq, Repr

/-- The `if not sku or sku.lower() in ("nan", "none")` skip test. -/
def skuBad (s : String) : Bool :=
  s == "" || pyLower s == "nan" || pyLower s == "none"

/-- `drop_duplicates(subset=["SKU"], keep="last")`: keep each SKU's last
occurrence, in the position of that last occurrence. -/
def dedupLastBySku : List SkuCfgRow → List SkuCfgRow
  | [] => []
  | x :: xs =>
    if xs.any (fun y => y.SKU == x.SKU) then dedupLastBySku xs
    else x :: dedupLastBySku xs

/-- The result of `load_config_xlsx`. -/
structure ConfigOut where
  sku_cfg_df : List SkuCfgRow
  sku_factory_short : List (String × String)
  factory_name_to_addr : List (String × String)
deriving DecidableEq, Repr

/-- `xls = pd.read_excel(cfg_path, sheet_name=None)`: a workbook is a list
of named sheets; `name in xls` / `xls[name]` is lookup. -/
def xlsLookup (xls : List (String × DF)) (name : String) : Option DF :=
  (xls.find? (fun p => p.1 == name)).map Prod.snd

/-- One SKU row's contribution inside the loop of `load_config_xlsx`:
the data row, the `sku_factory_short` update, and the alias row. -/
def skuRowStep (skuc : String) (sku_search_col name_col fac_short_col
    carton_col l_col w_col h_col gw_col : Option String)
    (acc : List SkuCfgRow × List (String × String))
    (r : List (String × PVal)) : List SkuCfgRow × List (String × String) :=
  let sku := strCell (rowGet r skuc)
  if skuBad sku then acc
  else
    let getNum := fun (oc : Option String) =>
      match oc with
      | some c => pyToNumeric (rowGet r c)
      | none => none
    let row : SkuCfgRow :=
      { SKU := sku
        prodName := match name_col with
          | some nc => strCell (rowGet r nc)
          | none => ""
        lengthV := getNum l_col
        widthV := getNum w_col
        heightV := getNum h_col
        grossWeight := getNum gw_col
        unitsPerCarton := getNum carton_col }
    let rows1 := acc.1 ++ [row]
    let map1 :=
      match fac_short_col with
      | some fc =>
        let fs := strCell (rowGet r fc)
        if fs ≠ "" ∧ ¬ (pyLower fs = "nan" ∨ pyLower fs = "none") then
          dictInsert acc.2 sku fs
        else acc.2
      | none => acc.2
    match sku_search_col with
    | some ac =>
      let aliasS := strCell (rowGet r ac)
      if aliasS ≠ "" ∧ ¬ (pyLower aliasS = "nan" ∨ pyLower aliasS = "none") ∧ aliasS ≠ sku then
        let rows2 := rows1 ++ [{ row with SKU := aliasS }]
        let map2 :=
          match fac_short_col, dictGet map1 sku with
          | some _, some fs => dictInsert map1 aliasS fs
          | _, _ => map1
        (rows2, map2)
      else (rows1, map1)
    | none => (rows1, map1)

/-- The factory table pass of `load_config_xlsx`: rows with an empty or
nan/none name or address are skipped; the rest populate the dict. -/
def buildFactoryMap (xls : List (String × DF)) : List (String × String) :=
  match xlsLookup xls "工厂信息" with
  | none => []
  | some dfRaw =>
    let dfF := stripDfCols dfRaw
    match find_col dfF.cols ["工厂名称"], find_col dfF.cols ["工厂地址"] with
    | some ncol, some acol =>
      dfF.rows.foldl
        (fun acc r =>
          let n_ := strCell (rowGet r ncol)
          let a_ := strCell (rowGet r acol)
          if n_ ≠ "" ∧ a_ ≠ "" ∧ ¬ (pyLower n_ = "nan" ∨ pyLower n_ = "none")
              ∧ ¬ (pyLower a_ = "nan" ∨ pyLower a_ = "none") then
            dictInsert acc n_ a_
          else acc)
        []
    | _, _ => []

/-- Embedding of `load_config_xlsx`: requires the `SKU信息` sheet and its
SKU column, tolerates an absent `工厂信息` sheet. -/
def load_config_xlsx (xls : List (String × DF)) : Except String ConfigOut :=
  match xlsLookup xls "SKU信息" with
  | none => .error "配置文件缺少 sheet：SKU信息"
  | some dfRaw =>
    let df_sku := stripDfCols dfRaw
    let sku_col := find_col df_sku.cols ["SKU"]
    let sku_search_col := find_col df_sku.cols ["SKU检索"]
    let name_col := find_col df_sku.cols ["产品名称"]
    let fac_short_col := find_col df_sku.cols ["工厂简称"]
    let carton_col := find_col df_sku.cols ["箱规"]
    let l_col := find_col df_sku.cols ["长"]
    let w_col := find_col df_sku.cols ["宽"]
    let h_col := find_col df_sku.cols ["高"]
    let gw_col := find_col df_sku.cols ["毛重"]
    match sku_col with
    | none => .error "配置文件 SKU信息 缺少列：SKU"
    | some skuc =>
      let built := df_sku.rows.foldl
        (skuRowStep skuc sku_search_col name_col fac_short_col
          carton_col l_col w_col h_col gw_col)
        ([], [])
      .ok
        { sku_cfg_df := dedupLastBySku built.1
          sku_factory_short := built.2
          factory_name_to_addr := buildFactoryMap xls }

/-! ## `build_data_rows_from_file1` -/

/-- The dict built per input row by `build_data_rows_from_file1` (the keys
"FNSKU / UPC", "FBA ID" and "Reference ID" are legal Lean field names only
after renaming). -/
structure DataRow where
  opOwner : PVal
  account : PVal
  FNSKU_UPC : PVal
  SKU : PVal
  prodName : PVal
  shipQty : PVal
  unitsPerCarton : Option Int
  channel : PVal
  shipFrom : PVal
  FBAID : String
  ReferenceID : String
  destWarehouse : PVal
  warehouseCode : PVal
  factoryAddress : String
deriving DecidableEq, Repr

/-- `r.get(col) if col else None`. -/
def optGet (r : List (String × PVal)) (oc : Option String) : PVal :=
  match oc with
  | some c => rowGet r c
  | none => .none_

/-- The per-row units-per-carton resolution of `build_data_rows_from_file1`
(lines 1259–1267): the input's carton-spec column if numeric, else the
configuration value if present and non-NaN, else `none`. -/
def resolveCarton (carton_col : Option String)
    (cfg_carton_map : List (String × Option Int)) (sku : String)
    (r : List (String × PVal)) : Option Int :=
  let c1 : Option Int :=
    match carton_col with
    | some cc => pyToNumeric (rowGet r cc)
    | none => none
  match c1 with
  | some q => some q
  | none =>
    match (cfg_carton_map.find? (fun p => p.1 == sku)).map Prod.snd with
    | some (some x) => some x
    | _ => none

/-- Embedding of `build_data_rows_from_file1`. -/
def build_data_rows_from_file1 (df : DF) (sku_cfg_df : List SkuCfgRow)
    (sku_factory_short : List (String × String))
    (factory_name_to_addr : List (String × String))
    (supplier_value : Option String) : List DataRow :=
  let op_col := find_col df.cols ["运营"]
  let acct_col := find_col df.cols ["店铺账号/目的仓库", "账号"]
  let fns_col := find_col df.cols ["FNSKU / UPC", "FNSKU/UPC", "FNSKU"]
  let sku_col := find_col df.cols ["仓库SKU", "SKU"]
  let prod_col := find_col df.cols ["产品名称", "品名"]
  let qty_col := find_col df.cols ["发货数量", "数量"]
  let carton_col := choose_best_numeric_col df "箱规"
  let ship_mode_col := find_col df.cols ["物流渠道", "物流方式"]
  let ship_from_col := find_col df.cols ["发货仓库", "发货仓"]
  let fba_col := find_col_exact df.cols ["FBA货件编号", "FBA ID", "FBA货件ID", "FBA货件号"]
  let ref_col := find_col_exact df.cols
    ["TF调拨单", "TF调拨单号", "调拨单号", "TF单号", "调拨单", "Reference ID", "参考单号"]
  let dest_col := find_col df.cols ["配送地址/收货人信息", "到货仓库"]
  let wh_code_col := find_col df.cols ["仓库代码"]
  let cfg_carton_map : List (String × Option Int) :=
    sku_cfg_df.map (fun r => (r.SKU, r.unitsPerCarton))
  let supplier_full :=
    match supplier_value with
    | none => ""
    | some sv => pyStrip sv
  let supplier_short := supplier_short_name (some supplier_full)
  df.rows.map
    (fun r =>
      let sku :=
        match sku_col with
        | some sc => strCell (rowGet r sc)
        | none => ""
      let fac_short := (dictGet sku_factory_short sku).getD ""
      let addr := fuzzy_factory_address [fac_short, supplier_short, supplier_full]
        factory_name_to_addr
      let carton := resolveCarton carton_col cfg_carton_map sku r
      { opOwner := optGet r op_col
        account := optGet r acct_col
        FNSKU_UPC := optGet r fns_col
        SKU := if sku = "" then .none_ else .s sku
        prodName := optGet r prod_col
        shipQty := optGet r qty_col
        unitsPerCarton := carton
        channel := optGet r ship_mode_col
        shipFrom := optGet r ship_from_col
        FBAID := match ref_col with
          | some rc => norm_id_value (rowGet r rc)
          | none => ""
        ReferenceID := match fba_col with
          | some fc => norm_id_value (rowGet r fc)
          | none => ""
        destWarehouse := optGet r dest_col
        warehouseCode := optGet r wh_code_col
        factoryAddress := addr })

/-- Claim-side units-per-carton for one row (claim C6): the numeric value of
the best carton-spec column variant when present and numeric, else the
configuration's units-per-carton for the row's SKU when present and
non-NaN, else null — never a default of 1. -/
def specUnitsPerCarton (df : DF) (cfg_carton_map : List (String × Option Int))
    (sku : String) (r : List (String × PVal)) : Option Int :=
  match choose_best_numeric_col df "箱规" with
  | some cc =>
    match pyToNumeric (rowGet r cc) with
    | some q => some q
    | none =>
      match (cfg_carton_map.find? (fun p => p.1 == sku)).map Prod.snd with
      | some (some x) => some x
      | _ => none
  | none =>
    match (cfg_carton_map.find? (fun p => p.1 == sku)).map Prod.snd with
    | some (some x) => some x
    | _ => none

/-! ## Label sub-flow carton-count fallback
(`fba_download_labels_for_file`, lines 360–417) -/

/-- Step (a): direct read of the carton-count column. -/
def qtyStepA (r : List (String × PVal)) (qty_col : Option String) : Option Int :=
  match qty_col with
  | some qc => pyToIntTrunc (rowGet r qc)
  | none => none

/-- Step (b): the first (ship-quantity, units-per-carton) column combination
whose ceiling ratio is positive. -/
def qtyStepB (r : List (String × PVal))
    (ship_qty_cols single_box_cols : List String) : Option Int :=
  (ship_qty_cols.flatMap (fun sq => single_box_cols.map (fun sb => (sq, sb)))).findSome?
    (fun p =>
      match pyToIntTrunc (rowGet r p.1), pyToIntTrunc (rowGet r p.2) with
      | some s, some b =>
        if b ≠ 0 ∧ pyCeilDiv s b > 0 then some (pyCeilDiv s b) else none
      | _, _ => none)

/-- Step (c) as the code implements it: scan offsets +1, -1, +2, -2, +3 from
the identifier column and stop at the FIRST value that parses as a number,
whatever its sign. -/
def qtyStepC (cols : List String) (r : List (String × PVal))
    (id_col : String) : Option Int :=
  match cols.findIdx? (fun c => c == id_col) with
  | some id_idx =>
    ([1, -1, 2, -2, 3] : List Int).findSome?
      (fun off =>
        let idx := (id_idx : Int) + off
        if 0 ≤ idx ∧ idx < (cols.length : Int) then
          pyToIntTrunc (rowGet r (cols.getD idx.toNat ""))
        else none)
  | none => none

/-- Step (c) as claim C7 words it: the first PLAUSIBLE POSITIVE integer
among the adjacent columns (non-positive parses are passed over). -/
def qtyStepCClaim (cols : List String) (r : List (String × PVal))
    (id_col : String) : Option Int :=
  match cols.findIdx? (fun c => c == id_col) with
  | some id_idx =>
    ([1, -1, 2, -2, 3] : List Int).findSome?
      (fun off =>
        let idx := (id_idx : Int) + off
        if 0 ≤ idx ∧ idx < (cols.length : Int) then
          match pyToIntTrunc (rowGet r (cols.getD idx.toNat "")) with
          | some v => if v > 0 then some v else none
          | none => none
        else none)
  | none => none

/-- Positivity of an optional carton count. -/
def posQty (o : Option Int) : Bool :=
  match o with
  | some v => decide (0 < v)
  | none => false

/-- Embedding of the per-row carton-count fallback of
`fba_download_labels_for_file`: (a) direct read; (b) if no positive value
yet and both column lists are non-empty, first positive ceiling ratio;
(c) if still no positive value, first PARSEABLE adjacent value (stopping
even on a non-positive one); (d) clamp to the default 1. -/
def resolveCartonQty (cols : List String) (r : List (String × PVal))
    (qty_col : Option String) (ship_qty_cols single_box_cols : List String)
    (id_col : String) : Int :=
  let q1 := qtyStepA r qty_col
  let q2 :=
    if (q1.isNone ∨ q1.getD 0 ≤ 0) ∧ ship_qty_cols ≠ [] ∧ single_box_cols ≠ [] then
      match qtyStepB r ship_qty_cols single_box_cols with
      | some v => some v
      | none => q1
    else q1
  let q3 :=
    if q2.isNone ∨ q2.getD 0 ≤ 0 then
      match qtyStepC cols r id_col with
      | some v => some v
      | none => q2
    else q2
  match q3 with
  | some v => if v ≤ 0 then 1 else v
  | none => 1

/-- Claim C7's four-step fallback, transcribed from its words: each later
step runs only if the prior step produced no positive integer, and step (c)
looks for the first plausible POSITIVE integer. -/
def claimResolveCartonQty (cols : List String) (r : List (String × PVal))
    (qty_col : Option String) (ship_qty_cols single_box_cols : List String)
    (id_col : String) : Int :=
  let a := qtyStepA r qty_col
  if posQty a then a.getD 1
  else
    let b := qtyStepB r ship_qty_cols single_box_cols
    if posQty b then b.getD 1
    else
      let c := qtyStepCClaim cols r id_col
      if posQty c then c.getD 1 else 1

/-- The amended four-step fallback: as claim C7, except that step (c) stops
at the first PARSEABLE adjacent value — if that value is not positive the
hard default 1 applies. -/
def amendedResolveCartonQty (cols : List String) (r : List (String × PVal))
    (qty_col : Option String) (ship_qty_cols single_box_cols : List String)
    (id_col : String) : Int :=
  let a := qtyStepA r qty_col
  if posQty a then a.getD 1
  else
    let b := qtyStepB r ship_qty_cols single_box_cols
    if posQty b then b.getD 1
    else
      match qtyStepC cols r id_col with
      | some v => if 0 < v then v else 1
      | none => 1

/-! ## FBA-id extraction (`read_fba_ids_from_split_xlsx`) -/

/-- The exact Reference-ID header candidates of
`read_fba_ids_from_split_xlsx`. -/
def refIdCandExact : List String :=
  ["Reference ID", "Reference_ID", "reference_id", "参考单号", "ReferenceId"]

/-- The column choice of `read_fba_ids_from_split_xlsx`: the first column
that equals one of the candidates, else the first whose lowercased name
contains "reference". -/
def chooseRefCol (cols : List String) : Option String :=
  match cols.find? (fun c => refIdCandExact.contains c) with
  | some c => some c
  | none => cols.find? (fun c => subStrB "reference" (pyLower c))

/-- Embedding of `read_fba_ids_from_split_xlsx` (given the already-loaded
sheet): strip and uppercase each value of the Reference-ID column, keep
those containing "FBA", deduplicate keeping first occurrences; an absent
column yields the empty list. -/
def read_fba_ids_from_split_xlsx (df : DF) : List String :=
  let cols := df.cols.map pyStrip
  match chooseRefCol cols with
  | none => []
  | some cand =>
    let ids := df.rows.filterMap
      (fun r =>
        let s := pyStrip
          (match rowGet r cand with
           | .none_ => ""
           | v => pvalStr v)
        if s = "" then none
        else
          let su := pyUpper s
          if subStrB "FBA" su then some su else none)
    dedupSeen [] ids

/-- The id list of `read_fba_ids_from_split_xlsx` BEFORE the seen-set
deduplication loop (empty when no Reference-ID-like column exists). -/
def rawFbaIds (df : DF) : List String :=
  match chooseRefCol (df.cols.map pyStrip) with
  | none => []
  | some cand =>
    df.rows.filterMap
      (fun r =>
        let s := pyStrip
          (match rowGet r cand with
           | .none_ => ""
           | v => pvalStr v)
        if s = "" then none
        else
          let su := pyUpper s
          if subStrB "FBA" su then some su else none)

/-! ## Formula translation

`rebuild_main_sheet_with_data` clones each template formula with openpyxl's
`Translator(src.value, origin=src.coordinate).translate_formula(dst.coordinate)`.
The Translator is library code, not part of this repository. -/

/-- A formula token: literal text, or a cell reference with an optional `$`
before the column letters and before the row number. -/
inductive FTok where
  | lit (cs : List Char)
  | ref (colAbs : Bool) (col : List Char) (rowAbs : Bool) (row : Nat)
deriving DecidableEq, Repr

/-- Column letters of a cell reference. -/
def isRefLetter (c : Char) : Bool :=
  ('A' ≤ c && c ≤ 'Z') || ('a' ≤ c && c ≤ 'z')

/-- ASCII digit test. -/
def isDigitB (c : Char) : Bool := '0' ≤ c && c ≤ '9'

/-- Decimal value of a digit run. -/
def digitsToNat (ds : List Char) : Nat :=
  ds.foldl (fun n c => 10 * n + (c.toNat - 48)) 0

/-- Tokenizer for formula text: skips quoted string literals, recognises
cell references `[$]letters[$]digits` (not followed by `(` — a function
call — or `!` — a sheet name), and passes everything else through as
literal characters.  `fuel` bounds the recursion by the input length. -/
def tokenizeAux : Nat → List Char → List FTok
  | 0, _ => []
  | _, [] => []
  | fuel + 1, c :: rest =>
    if c == '"' then
      let inner := rest.takeWhile (fun d => d != '"')
      let rest' := rest.drop inner.length
      match rest' with
      | '"' :: r2 => .lit (c :: inner ++ ['"']) :: tokenizeAux fuel r2
      | _ => [.lit (c :: inner)]
    else
      let cs := c :: rest
      let dol1 := c == '$'
      let t1 := if dol1 then rest else cs
      let letters := t1.takeWhile isRefLetter
      let t2 := t1.drop letters.length
      let dol2 := match t2 with
        | '$' :: _ => true
        | _ => false
      let t3 := if dol2 then t2.drop 1 else t2
      let digits := t3.takeWhile isDigitB
      let t4 := t3.drop digits.length
      let nextOk := match t4 with
        | [] => true
        | d :: _ => !(d == '(' || d == '!')
      if letters ≠ [] ∧ digits ≠ [] ∧ nextOk = true then
        .ref dol1 letters dol2 (digitsToNat digits) :: tokenizeAux fuel t4
      else
        .lit [c] :: tokenizeAux fuel rest

/-- Tokenize a whole formula string. -/
def tokenizeFormula (f : String) : List FTok :=
  tokenizeAux f.data.length f.data

/-- Shift a token by the row delta: relative row references move, absolute
ones and literals do not. -/
def shiftTok (d : Nat) : FTok → FTok
  | .lit cs => .lit cs
  | .ref ca col true r => .ref ca col true r
  | .ref ca col false r => .ref ca col false (r + d)

/-- Render one token back to text. -/
def renderTok : FTok → List Char
  | .lit cs => cs
  | .ref ca col ra r =>
    (if ca then ['$'] else []) ++ col ++ (if ra then ['$'] else [])
      ++ (toString r).data

/-- Render a token list back to a formula string. -/
def renderToks (ts : List FTok) : String := ⟨(ts.map renderTok).flatten⟩

/-- Modelled from the spec: openpyxl's formula `Translator` (used at
`rebuild_main_sheet_with_data` lines 1163–1164) is not part of this
repository; per §4.7/§9 it must "shift row/column components not marked
absolute" by the origin→target delta.  The rebuild always translates within
one column (origin `(template_data_row, c)`, target `(template_data_row + i,
c)`), so the column delta is 0 and only the row delta matters; this
definition implements that equal-column case. -/
def translate_formula (f : String) (rowDelta : Nat) : String :=
  renderToks ((tokenizeFormula f).map (shiftTok rowDelta))

/-! ## Worksheet model and `rebuild_main_sheet_with_data`

A worksheet is a list of rows of cell values (1-based row/column indexing in
the operations, openpyxl-style).  Cell styles, row heights, freeze panes and
the auto-filter are presentation state with no influence on cell values and
are not modelled. -/

/-- One worksheet row. -/
abbrev SRow := List PVal

/-- A worksheet. -/
abbrev Sheet := List SRow

/-- `ws.max_column`: the widest row. -/
def maxColOf (ws : Sheet) : Nat := ws.foldl (fun m r => max m r.length) 0

/-- `ws.cell(r, c).value` for reading (1-based); absent cells read as
empty. -/
def cellAt (ws : Sheet) (r c : Nat) : PVal := (ws.getD (r - 1) []).getD (c - 1) .none_

/-- Pad a row with empty cells up to `n` columns. -/
def padTo (row : SRow) (n : Nat) : SRow :=
  row ++ List.replicate (n - row.length) .none_

/-- `ws.cell(r, c).value = v` restricted to one row: openpyxl creates the
intermediate cells. -/
def setRowCell (row : SRow) (c : Nat) (v : PVal) : SRow :=
  (padTo row c).set (c - 1) v

/-- The value the clone loop writes for one template cell: a translated
formula for text beginning with "=", otherwise `None` (values are written
afterwards by header name). -/
def cloneValue (src : PVal) (delta : Nat) : PVal :=
  match src with
  | .s f => if isPreB ['='] f.data then .s (translate_formula f delta) else .none_
  | _ => .none_

/-- The clone loop `for c in range(1, max_col + 1)` over one inserted data
row (initially empty), for data row index `i` (row delta `i`). -/
def cloneRow (tmpl : List PVal) (delta maxCol : Nat) : SRow :=
  (List.range maxCol).foldl
    (fun row c => setRowCell row (c + 1) (cloneValue (tmpl.getD c .none_) delta))
    []

/-- The header→column dictionary
`{str(h).strip(): idx for idx, h in enumerate(headers, start=1) if h is not None}`:
a later duplicate header overwrites an earlier one. -/
def colIdxOf (headers : List PVal) (name : String) : Option Nat :=
  (((headers.enumFrom 1).filter
      (fun p => p.2 ≠ PVal.none_ ∧ pyStrip (pvalStr p.2) = name)).getLast?).map Prod.fst

/-- `setv`: write a value into the row at the column bearing the header
`name`, when that header exists. -/
def setvRow (headers : List PVal) (row : SRow) (name : String) (v : PVal) : SRow :=
  match colIdxOf headers name with
  | some c => setRowCell row c v
  | none => row

/-- Convert an optional number to a cell value. -/
def optIntPV (o : Option Int) : PVal :=
  match o with
  | some q => .n q
  | none => .none_

/-- The fifteen `setv` calls of the data-row write, in source order. -/
def valueWrites (pickup_date_cell : String) (rd : DataRow) : List (String × PVal) :=
  [("预计提货日期", .s pickup_date_cell),
   ("销售负责人", rd.opOwner),
   ("账号", rd.account),
   ("FNSKU / UPC", rd.FNSKU_UPC),
   ("SKU", rd.SKU),
   ("产品名称", rd.prodName),
   ("发货数量", rd.shipQty),
   ("单箱数量", optIntPV rd.unitsPerCarton),
   ("物流渠道", rd.channel),
   ("发货仓库", rd.shipFrom),
   ("FBA ID", .s rd.FBAID),
   ("Reference ID", .s rd.ReferenceID),
   ("到货仓库", rd.destWarehouse),
   ("仓库代码", rd.warehouseCode),
   ("工厂地址", .s rd.factoryAddress)]

/-- One finished data row: the template clone, then the value columns
written by header name. -/
def dataRowContent (tmpl : List PVal) (headers : List PVal)
    (pickup_date_cell : String) (rd : DataRow) (i maxCol : Nat) : SRow :=
  (valueWrites pickup_date_cell rd).foldl
    (fun row p => setvRow headers row p.1 p.2)
    (cloneRow tmpl i maxCol)

/-- The aggregate columns of `set_sum` with their 1-based indices. -/
def sumCols : List (Nat × String) :=
  [(7, "G"), (10, "J"), (22, "V"), (23, "W"), (24, "X")]

/-- The total row: every cell cleared, then `=SUM(L{first}:L{last})` written
into the fixed aggregate columns over the actual inserted range. -/
def totalRowContent (tdr n maxCol : Nat) : SRow :=
  let base := (List.range maxCol).foldl
    (fun row c => setRowCell row (c + 1) PVal.none_) []
  sumCols.foldl
    (fun row p =>
      setRowCell row p.1
        (.s ("=SUM(" ++ p.2 ++ toString tdr ++ ":" ++ p.2
          ++ toString (tdr + n - 1) ++ ")")))
    base

/-- The captured template data-row cells (`tmpl_cells`). -/
def tmplCellsOf (ws : Sheet) (tdr : Nat) : List PVal :=
  (List.range (maxColOf ws)).map (fun c => cellAt ws tdr (c + 1))

/-- Rows before the template data row, padded with empty rows when the sheet
is shorter (as openpyxl's absolute row coordinates imply). -/
def preRowsOf (ws : Sheet) (tdr : Nat) : Sheet :=
  ws.take (tdr - 1) ++ List.replicate (tdr - 1 - (ws.take (tdr - 1)).length) []

/-- The header cells the write loop reads from row 1 AFTER the deletion and
the insertion of the `n + 1` blank rows. -/
def headersOf (ws : Sheet) (n tdr : Nat) : List PVal :=
  (List.range (maxColOf ws)).map
    (fun c => cellAt (preRowsOf ws tdr ++ List.replicate (n + 1) ([] : SRow)) 1 (c + 1))

/-- Embedding of `rebuild_main_sheet_with_data`: capture the template data
row, delete rows from the template data row down, return if there are no
data rows, otherwise insert the block of cloned data rows followed by the
rebuilt total row at the template data-row position.  (The captured total
row and the row heights, freeze pane and auto-filter carry only style.) -/
def rebuild_main_sheet_with_data (ws : Sheet) (data_rows : List DataRow)
    (pickup_date_cell : String) (template_data_row : Nat := 2)
    (template_total_row : Nat := 4) : Sheet :=
  let n := data_rows.length
  if n = 0 then ws.take (template_data_row - 1)
  else
    preRowsOf ws template_data_row
      ++ (data_rows.enum.map
        (fun p => dataRowContent (tmplCellsOf ws template_data_row)
          (headersOf ws n template_data_row) pickup_date_cell p.2 p.1
          (maxColOf ws)))
      ++ [totalRowContent template_data_row n (maxColOf ws)]

/-! # Theorems -/

/-! ### Fold lemmas used to relate the code folds to the claim-side folds -/

theorem foldl_skip_filter {β : Type _} (p : String → Bool)
    (g : β → String → β) (keys : List String) (init : β) :
    keys.foldl (fun b k => if p k then b else g b k) init
      = (keys.filter (fun k => !p k)).foldl g init := by
  induction keys generalizing init with
  | nil => rfl
  | cons k ks ih =>
    by_cases h : p k = true <;> simp [h, ih]

theorem foldl_flatMap {α β γ : Type _} (g : γ → β → γ) (f : α → List β)
    (l : List α) (init : γ) :
    (l.flatMap f).foldl g init = l.foldl (fun b a => (f a).foldl g b) init := by
  induction l generalizing init with
  | nil => rfl
  | cons a as ih => simp [List.foldl_append, ih]

theorem foldl_proj {α₁ α₂ β : Type _} (f : α₁ → α₂) (g₁ : α₁ → β → α₁)
    (g₂ : α₂ → β → α₂) (H : ∀ x y, g₂ (f x) y = f (g₁ x y))
    (l : List β) (init : α₁) :
    l.foldl g₂ (f init) = f (l.foldl g₁ init) := by
  induction l generalizing init with
  | nil => rfl
  | cons a as ih => simp only [List.foldl_cons, H, ih]

theorem flatMap_const_nil {α β : Type _} (l : List α) :
    (l.flatMap (fun _ => ([] : List β))) = [] := by
  induction l <;> simp [*]

theorem skip_cond_filter (keys : List String) :
    keys.filter (fun k => !decide (norm_key k = "" ∨ (norm_key k).length < 2))
      = keys.filter (fun k => 2 ≤ (norm_key k).length) := by
  apply List.filter_congr
  intro k _
  rcases Nat.lt_or_ge (norm_key k).length 2 with h | h
  · have h1 : norm_key k = "" ∨ (norm_key k).length < 2 := Or.inr h
    have h2 : ¬ 2 ≤ (norm_key k).length := Nat.not_le_of_lt h
    simp [h1, h2]
  · have h1 : ¬ (norm_key k = "" ∨ (norm_key k).length < 2) := by
      rintro (he | hl)
      · rw [he] at h
        simp at h
      · omega
    have h2 : 2 ≤ (norm_key k).length := h
    simp [h1, h2]

theorem name_inner_eq (k : String) (m : List (String × String)) (b : String × Nat) :
    (m.map (fun p => (p.1, norm_key p.1, p.2))).foldl (nameStep (norm_key k)) b
      = (m.map (fun e => (k, e.1, e.2))).foldl specNameStep b := by
  rw [List.foldl_map, List.foldl_map]
  rfl

theorem addr_inner_proj (k : String) (m : List (String × String))
    (x : String × Nat × String) :
    (m.map (fun e => (k, e.1, e.2))).foldl specAddrStep (x.2.2, x.2.1)
      = (((m.map (fun p => (p.1, norm_key p.1, p.2))).foldl
            (addrStep (norm_key k)) x).2.2,
         ((m.map (fun p => (p.1, norm_key p.1, p.2))).foldl
            (addrStep (norm_key k)) x).2.1) := by
  rw [List.foldl_map, List.foldl_map]
  refine foldl_proj (fun t => (t.2.2, t.2.1)) _ _ ?_ m x
  intro y p
  unfold addrStep specAddrStep scoreAddrSpec addrScore
  by_cases h : (if subStrB (norm_key k) (norm_key p.1) then (norm_key k).length
      else if subStrB (norm_key p.1) (norm_key k) then (norm_key p.1).length
      else 0) > y.2.1 <;> simp [h]

theorem addr_best_proj (ks : List String) (m : List (String × String))
    (a : String) (n : Nat) (d : String) :
    ks.foldl (fun b k =>
        (m.map (fun e => (k, e.1, e.2))).foldl specAddrStep b) (d, n)
      = ((ks.foldl (fun x k =>
            (m.map (fun p => (p.1, norm_key p.1, p.2))).foldl
              (addrStep (norm_key k)) x) (a, n, d)).2.2,
         (ks.foldl (fun x k =>
            (m.map (fun p => (p.1, norm_key p.1, p.2))).foldl
              (addrStep (norm_key k)) x) (a, n, d)).2.1) :=
  foldl_proj (fun t => (t.2.2, t.2.1)) _ _
    (fun x k => addr_inner_proj k m x) ks (a, n, d)

theorem fuzzy_name_eq_spec (keys : List String) (m : List (String × String)) :
    fuzzy_factory_name keys m = spec_fuzzy_name keys m := by
  unfold fuzzy_factory_name spec_fuzzy_name keyPairs
  rcases m with _ | ⟨e, es⟩
  · simp [flatMap_const_nil]
  · simp only [List.isEmpty_cons, Bool.false_eq_true, if_false]
    rw [foldl_flatMap]
    have hskip := foldl_skip_filter
      (fun k => decide (norm_key k = "" ∨ (norm_key k).length < 2))
      (fun b k =>
        ((e :: es).map (fun p => (p.1, norm_key p.1, p.2))).foldl
          (nameStep (norm_key k)) b)
      keys (("" : String), (0 : Nat))
    simp only [decide_eq_true_eq] at hskip
    rw [hskip, skip_cond_filter]
    have hfold : ∀ (ks : List String) (init : String × Nat),
        ks.foldl (fun b k =>
            ((e :: es).map (fun p => (p.1, norm_key p.1, p.2))).foldl
              (nameStep (norm_key k)) b) init
          = ks.foldl (fun b k =>
              ((e :: es).map (fun x => (k, x.1, x.2))).foldl specNameStep b) init := by
      intro ks init
      apply List.foldl_ext
      intro b k _
      exact name_inner_eq k (e :: es) b
    rw [hfold]

theorem fuzzy_address_eq_spec (keys : List String) (m : List (String × String)) :
    fuzzy_factory_address keys m = spec_fuzzy_address keys m := by
  unfold fuzzy_factory_address spec_fuzzy_address keyPairs
  rcases m with _ | ⟨e, es⟩
  · simp [flatMap_const_nil]
  · simp only [List.isEmpty_cons, Bool.false_eq_true, if_false]
    rw [foldl_flatMap]
    have hskip := foldl_skip_filter
      (fun k => decide (norm_key k = "" ∨ (norm_key k).length < 2))
      (fun b k =>
        ((e :: es).map (fun p => (p.1, norm_key p.1, p.2))).foldl
          (addrStep (norm_key k)) b)
      keys (("" : String), (0 : Nat), ("" : String))
    simp only [decide_eq_true_eq] at hskip
    rw [hskip, skip_cond_filter]
    rw [addr_best_proj (keys.filter (fun k => 2 ≤ (norm_key k).length)) (e :: es)
      "" 0 ""]


theorem dedupSeen_sublist [DecidableEq α] (seen : List α) (l : List α) :
    (dedupSeen seen l).Sublist l := by
  induction l generalizing seen with
  | nil => exact List.Sublist.refl _
  | cons x xs ih =>
    rw [dedupSeen]
    by_cases hx : x ∈ seen
    · simp only [hx, if_true]
      exact (ih seen).cons x
    · simp only [hx, if_false]
      exact (ih (x :: seen)).cons₂ x

theorem mem_dedupSeen [DecidableEq α] (a : α) (seen : List α) (l : List α) :
    a ∈ dedupSeen seen l ↔ a ∈ l ∧ a ∉ seen := by
  induction l generalizing seen with
  | nil => simp [dedupSeen]
  | cons x xs ih =>
    rw [dedupSeen]
    by_cases hx : x ∈ seen
    · simp only [hx, if_true, ih, List.mem_cons]
      constructor
      · rintro ⟨h1, h2⟩
        exact ⟨Or.inr h1, h2⟩
      · rintro ⟨h1 | h1, h2⟩
        · subst h1
          exact absurd hx h2
        · exact ⟨h1, h2⟩
    · simp only [hx, if_false, List.mem_cons, ih]
      by_cases hax : a = x
      · subst hax
        simp [hx]
      · simp only [hax, false_or]

theorem dedupSeen_nodup [DecidableEq α] (seen : List α) (l : List α) :
    (dedupSeen seen l).Nodup := by
  induction l generalizing seen with
  | nil => exact List.nodup_nil
  | cons x xs ih =>
    rw [dedupSeen]
    by_cases hx : x ∈ seen
    · simp only [hx, if_true]
      exact ih seen
    · simp only [hx, if_false]
      refine List.Nodup.cons ?_ (ih (x :: seen))
      intro hmem
      have := (mem_dedupSeen x (x :: seen) xs).mp hmem
      exact this.2 (List.mem_cons_self x seen)

theorem firstDedup_sublist [DecidableEq α] (l : List α) : (firstDedup l).Sublist l :=
  dedupSeen_sublist [] l

theorem firstDedup_nodup [DecidableEq α] (l : List α) : (firstDedup l).Nodup :=
  dedupSeen_nodup [] l

theorem mem_firstDedup [DecidableEq α] (a : α) (l : List α) :
    a ∈ firstDedup l ↔ a ∈ l := by
  rw [firstDedup, mem_dedupSeen]
  simp

theorem dedupSeen_congr [DecidableEq α] (s₁ s₂ : List α)
    (h : ∀ a, a ∈ s₁ ↔ a ∈ s₂) (l : List α) :
    dedupSeen s₁ l = dedupSeen s₂ l := by
  induction l generalizing s₁ s₂ with
  | nil => rfl
  | cons x xs ih =>
    rw [dedupSeen, dedupSeen]
    by_cases hx : x ∈ s₁
    · simp only [hx, (h x).mp hx, if_true]
      exact ih s₁ s₂ h
    · have hx2 : x ∉ s₂ := fun hc => hx ((h x).mpr hc)
      simp only [hx, hx2, if_false]
      refine congrArg _ (ih (x :: s₁) (x :: s₂) ?_)
      intro a
      simp [h a]

theorem dedupSeen_cons_filter [DecidableEq α] (x : α) (seen : List α)
    (l : List α) :
    dedupSeen (x :: seen) l = dedupSeen seen (l.filter (fun y => y ≠ x)) := by
  induction l generalizing seen with
  | nil => rfl
  | cons c cs ih =>
    by_cases hcx : c = x
    · subst hcx
      rw [dedupSeen]
      simp only [List.mem_cons, true_or, if_true]
      rw [List.filter_cons_of_neg (by simp)]
      exact ih seen
    · rw [List.filter_cons_of_pos (by simp [hcx])]
      rw [dedupSeen, dedupSeen]
      by_cases hc : c ∈ seen
      · have h1 : c ∈ x :: seen := List.mem_cons_of_mem _ hc
        simp only [h1, hc, if_true]
        exact ih seen
      · have h1 : c ∉ x :: seen := by
          intro hmem
          rcases List.mem_cons.mp hmem with h | h
          · exact hcx h
          · exact hc h
        simp only [h1, hc, if_false]
        refine congrArg _ ?_
        rw [dedupSeen_congr (c :: x :: seen) (x :: c :: seen)
          (by
            intro a
            simp only [List.mem_cons]
            tauto) cs]
        exact ih (c :: seen)

/-- The recursive first-occurrence characterisation: `firstDedup` keeps the
head and deduplicates the tail with the head removed. -/
theorem firstDedup_cons [DecidableEq α] (x : α) (xs : List α) :
    firstDedup (x :: xs) = x :: firstDedup (xs.filter (fun y => y ≠ x)) := by
  rw [firstDedup, dedupSeen]
  simp only [List.not_mem_nil, if_false]
  rw [dedupSeen_cons_filter]
  rfl

/-! ## Counting helper -/

theorem count_filter_eq {α : Type _} [BEq α] [LawfulBEq α] (p : α → Bool) (l : List α)
    (a : α) : (l.filter p).count a = if p a then l.count a else 0 := by
  induction l with
  | nil => simp
  | cons x xs ih =>
    by_cases hx : p x = true <;> by_cases hax : x = a <;>
      simp_all [List.filter_cons, List.count_cons]

/-! ## Claim theorems C1 and C5 -/

/-- Claim C1 (amended): every row of the detected sheet belongs to exactly
one of the factory-direct and "other" partitions, and factory-direct holds
iff the direct-shipment-type cell contains the literal marker "工厂直发"
after removing every ASCII space and full-width space (U+3000) — not after
removing all whitespace, which is what the original claim said. -/
theorem claim_C1 (rows : List (Option String)) (r : Option String) :
    (factoryDirectRows rows).count r + (otherRows rows).count r = rows.count r
    ∧ (r ∈ factoryDirectRows rows ↔ r ∈ rows ∧ classifyDirect r = true)
    ∧ (r ∈ otherRows rows ↔ r ∈ rows ∧ classifyDirect r = false)
    ∧ classifyDirect r = subStrB "工厂直发" (stripSpacesFw (pyAstypeStr r)) := by
  refine ⟨?_, ?_, ?_, rfl⟩
  · rw [factoryDirectRows, otherRows, count_filter_eq, count_filter_eq]
    by_cases h : classifyDirect r = true <;> simp [h]
  · simp [factoryDirectRows, List.mem_filter]
  · simp [otherRows, List.mem_filter]

/-- Counterexample to claim C1 as stated: a cell containing a tab between
the marker's characters.  Removing ALL whitespace would produce the marker,
so the claim classifies the row factory-direct; the code removes only the
ASCII space and the full-width space, so it does not. -/
theorem claim_C1_counterexample :
    classifyDirect (some "工厂\t直发") = false
    ∧ claimClassifyDirect (some "工厂\t直发") = true := by
  constructor <;> rfl

/-- Witness for claim C1 at a concrete partition. -/
theorem claim_C1_witness :
    (some "工厂 直发" ∈ factoryDirectRows [some "工厂 直发", some "中仓"]
      ↔ some "工厂 直发" ∈ [some "工厂 直发", some "中仓"]
        ∧ classifyDirect (some "工厂 直发") = true) :=
  (claim_C1 [some "工厂 直发", some "中仓"] (some "工厂 直发")).2.1

/-! ## Order facts for the grouping key sort -/

theorem charEq_of_toNat {a b : Char} (h : a.toNat = b.toNat) : a = b :=
  Char.ext (UInt32.ext h)

theorem strLtL_total : ∀ as bs : List Char,
    strLtL as bs = true ∨ as = bs ∨ strLtL bs as = true := by
  intro as
  induction as with
  | nil =>
    intro bs
    cases bs <;> simp [strLtL]
  | cons a as ih =>
    intro bs
    cases bs with
    | nil => simp [strLtL]
    | cons b bs =>
      rcases Nat.lt_trichotomy a.toNat b.toNat with h | h | h
      · left
        simp [strLtL, h]
      · have hab : a = b := charEq_of_toNat h
        subst hab
        rcases ih bs with h2 | h2 | h2
        · left
          simp [strLtL, h2]
        · right
          left
          rw [h2]
        · right
          right
          simp [strLtL, h2]
      · right
        right
        simp [strLtL, h, Nat.lt_asymm h]

theorem strLtL_trans : ∀ as bs cs : List Char,
    strLtL as bs = true → strLtL bs cs = true → strLtL as cs = true := by
  intro as
  induction as with
  | nil =>
    intro bs cs h1 h2
    cases bs with
    | nil => exact h2
    | cons b bs =>
      cases cs with
      | nil => simp [strLtL] at h2
      | cons c cs => simp [strLtL]
  | cons a as ih =>
    intro bs cs h1 h2
    cases bs with
    | nil => simp [strLtL] at h1
    | cons b bs =>
      cases cs with
      | nil => simp [strLtL] at h2
      | cons c cs =>
        rcases Nat.lt_trichotomy a.toNat b.toNat with h₁ | h₁ | h₁
        · rcases Nat.lt_trichotomy b.toNat c.toNat with h₂ | h₂ | h₂
          · simp [strLtL, Nat.lt_trans h₁ h₂]
          · have hbc : b = c := charEq_of_toNat h₂
            subst hbc
            simp [strLtL, h₁]
          · simp [strLtL, Nat.lt_asymm h₂] at h2
            omega
        · have hab : a = b := charEq_of_toNat h₁
          subst hab
          simp only [strLtL, Nat.lt_irrefl, if_false] at h1
          rcases Nat.lt_trichotomy a.toNat c.toNat with h₂ | h₂ | h₂
          · simp [strLtL, h₂]
          · have hac : a = c := charEq_of_toNat h₂
            subst hac
            simp only [strLtL, Nat.lt_irrefl, if_false] at h2 ⊢
            exact ih bs cs h1 h2
          · simp [strLtL, Nat.lt_asymm h₂, h₂] at h2
        · simp [strLtL, Nat.lt_asymm h₁, h₁] at h1

theorem string_eq_of_data {a b : String} (h : a.data = b.data) : a = b := by
  cases a
  cases b
  exact congrArg String.mk h

instance : IsTotal String (fun a b => pyStrLe a b = true) := by
  constructor
  intro a b
  rcases strLtL_total a.data b.data with h | h | h
  · left
    simp [pyStrLe, h]
  · left
    have : a = b := string_eq_of_data h
    simp [pyStrLe, this]
  · right
    simp [pyStrLe, h]

instance : IsTrans String (fun a b => pyStrLe a b = true) := by
  constructor
  intro a b c h1 h2
  simp only [pyStrLe, Bool.or_eq_true, beq_iff_eq] at h1 h2 ⊢
  rcases h1 with h1 | h1
  · rcases h2 with h2 | h2
    · exact Or.inl (strLtL_trans _ _ _ h1 h2)
    · subst h2
      exact Or.inl h1
  · subst h1
    exact h2

/-! ## Claim C2 -/

theorem count_group_flatten (rows : List (Option String × Nat))
    (r : Option String × Nat) :
    ∀ (keys : List String), keys.Nodup →
      ((keys.map (fun k => rows.filter (fun x => x.1 = some k))).flatten).count r
        = if (∃ k, k ∈ keys ∧ r.1 = some k) then rows.count r else 0 := by
  intro keys
  induction keys with
  | nil => simp
  | cons k ks ih =>
    intro hnd
    rw [List.map_cons, List.flatten_cons, List.count_append,
      ih (List.nodup_cons.mp hnd).2]
    have hkmem : k ∉ ks := (List.nodup_cons.mp hnd).1
    by_cases hk : r.1 = some k
    · have h1 : (rows.filter (fun x => x.1 = some k)).count r = rows.count r := by
        rw [count_filter_eq]
        simp [hk]
      have hks : ¬ (∃ k', k' ∈ ks ∧ r.1 = some k') := by
        rintro ⟨k', hk', he⟩
        rw [hk] at he
        injection he with he
        exact hkmem (he ▸ hk')
      have hall : ∃ k', k' ∈ k :: ks ∧ r.1 = some k' := ⟨k, List.mem_cons_self k ks, hk⟩
      rw [h1, if_neg hks, if_pos hall]
      simp
    · have h1 : (rows.filter (fun x => x.1 = some k)).count r = 0 := by
        rw [count_filter_eq]
        simp [hk]
      have hiff : (∃ k', k' ∈ k :: ks ∧ r.1 = some k')
          ↔ (∃ k', k' ∈ ks ∧ r.1 = some k') := by
        constructor
        · rintro ⟨k', hk', he⟩
          rcases List.mem_cons.mp hk' with rfl | hk''
          · exact absurd he hk
          · exact ⟨k', hk'', he⟩
        · rintro ⟨k', hk', he⟩
          exact ⟨k', List.mem_cons_of_mem _ hk', he⟩
      rw [h1]
      by_cases hex : ∃ k', k' ∈ ks ∧ r.1 = some k'
      · rw [if_pos hex, if_pos (hiff.mpr hex)]
        simp
      · rw [if_neg hex, if_neg (fun h => hex (hiff.mp h))]

/-- Claim C2 (amended): the groups produced by `process_file` partition the
factory-direct rows whose supplier value is PRESENT — a row with a missing
supplier value is dropped (pandas `groupby` default `dropna=True`) — no row
appears in two groups and row order within a group is preserved, but the
groups come in ascending sorted order of the supplier value (pandas
`groupby` default `sort=True`), not in first-occurrence order. -/
theorem claim_C2 (rows : List (Option String × Nat)) :
    ((groupbySupplier rows).map Prod.fst).Sorted (fun a b => pyStrLe a b = true)
    ∧ ((groupbySupplier rows).map Prod.fst).Nodup
    ∧ (∀ g ∈ groupbySupplier rows,
        g.2 = rows.filter (fun r => r.1 = some g.1) ∧ g.2.Sublist rows)
    ∧ List.Pairwise (fun g h => ∀ r, r ∈ g.2 → r ∉ h.2) (groupbySupplier rows)
    ∧ ∀ r : Option String × Nat,
        (((groupbySupplier rows).map Prod.snd).flatten).count r
          = (rows.filter (fun x => x.1.isSome)).count r := by
  have hkeys : (groupbySupplier rows).map Prod.fst
      = List.insertionSort (fun a b => pyStrLe a b = true)
          (firstDedup (rows.filterMap Prod.fst)) := by
    rw [groupbySupplier, List.map_map]
    have hcomp : (Prod.fst ∘ fun k : String =>
        (k, rows.filter (fun r => r.1 = some k))) = id := by
      funext k
      rfl
    rw [hcomp, List.map_id]
  have hnodup : ((groupbySupplier rows).map Prod.fst).Nodup := by
    rw [hkeys]
    exact (List.perm_insertionSort _ _).symm.nodup
      (firstDedup_nodup (rows.filterMap Prod.fst))
  refine ⟨?_, hnodup, ?_, ?_, ?_⟩
  · rw [hkeys]
    exact List.sorted_insertionSort _ _
  · intro g hg
    rcases List.mem_map.mp hg with ⟨k, _, rfl⟩
    exact ⟨rfl, List.filter_sublist rows⟩
  · rw [groupbySupplier]
    rw [List.pairwise_map]
    have hnd : (List.insertionSort (fun a b => pyStrLe a b = true)
        (firstDedup (rows.filterMap Prod.fst))).Nodup := by
      rw [hkeys] at hnodup
      exact hnodup
    refine hnd.imp ?_
    intro k k' hkk r hr hr'
    rw [List.mem_filter] at hr hr'
    have h1 := of_decide_eq_true hr.2
    have h2 := of_decide_eq_true hr'.2
    rw [h1] at h2
    exact hkk (Option.some.inj h2)
  · intro r
    have hmapsnd : ((groupbySupplier rows).map Prod.snd)
        = (List.insertionSort (fun a b => pyStrLe a b = true)
            (firstDedup (rows.filterMap Prod.fst))).map
          (fun k => rows.filter (fun x => x.1 = some k)) := by
      rw [groupbySupplier, List.map_map]
      have hcomp : (Prod.snd ∘ fun k : String =>
          (k, rows.filter (fun r => r.1 = some k)))
          = fun k => rows.filter (fun x => x.1 = some k) := by
        funext k
        rfl
      rw [hcomp]
    rw [hmapsnd, count_group_flatten rows r _
      ((List.perm_insertionSort _ _).symm.nodup
        (firstDedup_nodup (rows.filterMap Prod.fst)))]
    rw [count_filter_eq]
    rcases hr1 : r.1 with _ | k0
    · have hnone : ¬ ∃ k, k ∈ List.insertionSort (fun a b => pyStrLe a b = true)
          (firstDedup (rows.filterMap Prod.fst))
          ∧ (none : Option String) = some k := by
        rintro ⟨k, _, he⟩
        exact Option.noConfusion he
      rw [if_neg hnone]
      simp
    · by_cases hmem : r ∈ rows
      · have hex : ∃ k, k ∈ List.insertionSort (fun a b => pyStrLe a b = true)
            (firstDedup (rows.filterMap Prod.fst))
            ∧ (some k0 : Option String) = some k := by
          refine ⟨k0, ?_, rfl⟩
          rw [(List.perm_insertionSort _ _).mem_iff, mem_firstDedup,
            List.mem_filterMap]
          exact ⟨r, hmem, hr1⟩
        rw [if_pos hex]
        simp
      · have hz : rows.count r = 0 := List.count_eq_zero.mpr hmem
        simp [hz]

/-- Counterexample to claim C2 as stated, at the concrete factory-direct
rows [supplier "b", supplier missing, supplier "a"]: the groups come out in
sorted order ["a", "b"] rather than the first-occurrence order ["b", "a"],
and their union has 2 rows while the partition has 3 (the missing-supplier
row is dropped), so the union is not the whole factory-direct partition. -/
theorem claim_C2_counterexample :
    (groupbySupplier [(some "b", 0), (none, 1), (some "a", 2)]).map Prod.fst
        = ["a", "b"]
    ∧ firstDedup (([(some "b", 0), (none, 1), (some "a", 2)]
        : List (Option String × Nat)).filterMap Prod.fst) = ["b", "a"]
    ∧ (["a", "b"] : List String) ≠ ["b", "a"]
    ∧ (((groupbySupplier [(some "b", 0), (none, 1), (some "a", 2)]).map
        Prod.snd).flatten).length = 2
    ∧ ([(some "b", 0), (none, 1), (some "a", 2)]
        : List (Option String × Nat)).length = 3 := by
  refine ⟨by decide, by decide, by decide, by decide, by decide⟩

/-- Witness for claim C2 at a concrete input. -/
theorem claim_C2_witness :
    (("a", [((some "a" : Option String), (0 : Nat))])
        ∈ groupbySupplier [(some "a", 0)]
      → [((some "a" : Option String), (0 : Nat))]
          = List.filter (fun r => r.1 = some "a") [(some "a", 0)]
        ∧ [((some "a" : Option String), (0 : Nat))].Sublist [(some "a", 0)])
    ∧ (("a", [((some "a" : Option String), (0 : Nat))])
        ∈ groupbySupplier [(some "a", 0)]) :=
  ⟨fun h => (claim_C2 [(some "a", 0)]).2.2.1 _ h, by decide⟩

/-- Claim C5: both fuzzy matchers coincide with the claim's description:
keys whose normalized form is shorter than 2 characters are skipped; exact
normalized equality scores 1000 plus the key's length in the name variant
only (the address variant has no equality bonus); otherwise containment in
either direction scores the length of the contained string; the
highest-scoring (key, factory) pair wins with ties keeping the first
encountered; and no positively scoring pair yields the empty string. -/
theorem claim_C5 (keys : List String) (m : List (String × String)) :
    fuzzy_factory_name keys m = spec_fuzzy_name keys m
    ∧ fuzzy_factory_address keys m = spec_fuzzy_address keys m :=
  ⟨fuzzy_name_eq_spec keys m, fuzzy_address_eq_spec keys m⟩

/-! ## Claim C6 -/

/-- Claim C6: in the main output path the resolved units-per-carton of every
row is the numeric value of the best carton-spec (箱规) column variant when
present and numeric, else the configuration's units-per-carton for the row's
SKU when present and non-NaN, else null; when both sources fail the value
stays null — the default 1 is never applied, so the cell surfaces blank. -/
theorem claim_C6 (df : DF) (sku_cfg_df : List SkuCfgRow)
    (sku_factory_short : List (String × String))
    (factory_name_to_addr : List (String × String))
    (supplier_value : Option String) :
    ((build_data_rows_from_file1 df sku_cfg_df sku_factory_short
        factory_name_to_addr supplier_value).map (fun d => d.unitsPerCarton)
      = df.rows.map
        (fun r =>
          specUnitsPerCarton df (sku_cfg_df.map (fun c => (c.SKU, c.unitsPerCarton)))
            (match find_col df.cols ["仓库SKU", "SKU"] with
             | some sc => strCell (rowGet r sc)
             | none => "") r))
    ∧ (∀ (carton_col : Option String) (cfgm : List (String × Option Int))
        (sku : String) (r : List (String × PVal)),
        (carton_col = none ∨ ∀ cc, carton_col = some cc → pyToNumeric (rowGet r cc) = none) →
        ((cfgm.find? (fun p => p.1 == sku)).map Prod.snd = none
          ∨ (cfgm.find? (fun p => p.1 == sku)).map Prod.snd = some none) →
        resolveCarton carton_col cfgm sku r = none) := by
  constructor
  · rw [build_data_rows_from_file1.eq_def, List.map_map]
    apply List.map_congr_left
    intro r _
    show resolveCarton (choose_best_numeric_col df "箱规") _ _ r = _
    rcases h : choose_best_numeric_col df "箱规" with _ | cc <;>
      simp only [resolveCarton.eq_def, specUnitsPerCarton.eq_def, h]
  · intro carton_col cfgm sku r hdirect hcfg
    rcases carton_col with _ | cc
    · rw [resolveCarton.eq_def]
      simp only
      rcases hcfg with h | h <;> simp [h]
    · have hd : pyToNumeric (rowGet r cc) = none := by
        rcases hdirect with h | h
        · exact Option.noConfusion h
        · exact h cc rfl
      rw [resolveCarton.eq_def]
      simp only [hd]
      rcases hcfg with h | h <;> simp [h]

/-- Witness for claim C6: an unresolved row stays null. -/
theorem claim_C6_witness :
    ((some "箱规" : Option String) = none
        ∨ ∀ cc, (some "箱规" : Option String) = some cc
            → pyToNumeric (rowGet [("箱规", PVal.s "x")] cc) = none)
    ∧ resolveCarton (some "箱规") [("A1", (none : Option Int))] "A1"
        [("箱规", PVal.s "x")] = none := by
  refine ⟨Or.inr ?_, ?_⟩
  · intro cc hcc
    injection hcc with hcc
    subst hcc
    rfl
  · exact (claim_C6 ⟨[], []⟩ [] [] [] none).2 (some "箱规")
      [("A1", (none : Option Int))] "A1" [("箱规", PVal.s "x")]
      (Or.inr (fun cc hcc => by
        injection hcc with hcc
        subst hcc
        rfl))
      (Or.inr rfl)

/-! ## Claim C9 -/

/-- Claim C9: `load_config_xlsx` fails when the SKU信息 sheet or its SKU
column is absent; an absent 工厂信息 sheet is not an error and yields an
empty factory-address map; and both fuzzy matchers return the empty string
on an empty factory map. -/
theorem claim_C9 :
    (∀ xls, xlsLookup xls "SKU信息" = none →
      load_config_xlsx xls = .error "配置文件缺少 sheet：SKU信息")
    ∧ (∀ xls df, xlsLookup xls "SKU信息" = some df →
        find_col (stripDfCols df).cols ["SKU"] = none →
        load_config_xlsx xls = .error "配置文件 SKU信息 缺少列：SKU")
    ∧ (∀ xls out, xlsLookup xls "工厂信息" = none →
        load_config_xlsx xls = .ok out → out.factory_name_to_addr = [])
    ∧ (∀ keys, fuzzy_factory_address keys [] = "" ∧ fuzzy_factory_name keys [] = "") := by
  refine ⟨?_, ?_, ?_, ?_⟩
  · intro xls h
    rw [load_config_xlsx, h]
  · intro xls df h1 h2
    rw [load_config_xlsx, h1]
    simp only [h2]
  · intro xls out hM hok
    rw [load_config_xlsx] at hok
    rcases hL : xlsLookup xls "SKU信息" with _ | df
    · rw [hL] at hok
      exact absurd hok (by simp)
    · rw [hL] at hok
      simp only at hok
      rcases hS : find_col (stripDfCols df).cols ["SKU"] with _ | skuc
      · rw [hS] at hok
        exact absurd hok (by simp)
      · rw [hS] at hok
        simp only at hok
        have hout := (Except.ok.inj hok).symm
        rw [hout]
        simp only
        rw [buildFactoryMap, hM]
  · intro keys
    exact ⟨rfl, rfl⟩

/-- Witness for claim C9 at concrete configuration workbooks. -/
theorem claim_C9_witness :
    load_config_xlsx [] = .error "配置文件缺少 sheet：SKU信息"
    ∧ load_config_xlsx [("SKU信息", ⟨["X"], []⟩)]
        = .error "配置文件 SKU信息 缺少列：SKU"
    ∧ (⟨[], [], []⟩ : ConfigOut).factory_name_to_addr = []
    ∧ (fuzzy_factory_address ["k"] [] = "" ∧ fuzzy_factory_name ["k"] [] = "") :=
  ⟨claim_C9.1 [] rfl,
   claim_C9.2.1 [("SKU信息", ⟨["X"], []⟩)] ⟨["X"], []⟩ rfl rfl,
   claim_C9.2.2.1 [("SKU信息", ⟨["SKU"], []⟩)] ⟨[], [], []⟩ rfl rfl,
   claim_C9.2.2.2 ["k"]⟩

/-! ## Stripping facts and claim C10 -/

theorem dropWhile_head_not (p : Char → Bool) (l : List Char) :
    ∀ x ∈ (l.dropWhile p).head?, p x = false := by
  induction l with
  | nil => simp
  | cons c cs ih =>
    rw [List.dropWhile_cons]
    by_cases hc : p c = true
    · rw [if_pos hc]
      exact ih
    · rw [if_neg hc]
      intro x hx
      simp only [List.head?_cons, Option.mem_def, Option.some.injEq] at hx
      subst hx
      exact Bool.eq_false_iff.mpr hc

theorem dropWhile_eq_self_of_head (p : Char → Bool) (l : List Char)
    (h : ∀ x ∈ l.head?, p x = false) : l.dropWhile p = l := by
  cases l with
  | nil => rfl
  | cons c cs =>
    rw [List.dropWhile_cons]
    have := h c (by simp)
    simp [this]

theorem noLeadWs_of_prefix {P A : List Char} (hpre : P <+: A)
    (h : ∀ x ∈ A.head?, pyIsWs x = false) : ∀ x ∈ P.head?, pyIsWs x = false := by
  cases P with
  | nil => simp
  | cons c cs =>
    rcases hpre with ⟨t, ht⟩
    subst ht
    intro x hx
    simp only [List.head?_cons, Option.mem_def, Option.some.injEq] at hx
    subst hx
    exact h c (by simp)

theorem pyStripChars_head (cs : List Char) :
    ∀ x ∈ (pyStripChars cs).head?, pyIsWs x = false := by
  rw [pyStripChars]
  have hsuf : List.dropWhile pyIsWs (List.dropWhile pyIsWs cs).reverse
      <:+ (List.dropWhile pyIsWs cs).reverse := List.dropWhile_suffix _
  have hpre : (List.dropWhile pyIsWs (List.dropWhile pyIsWs cs).reverse).reverse
      <+: List.dropWhile pyIsWs cs := by
    rw [← List.reverse_suffix]
    simpa using hsuf
  exact noLeadWs_of_prefix hpre (dropWhile_head_not pyIsWs cs)

theorem pyStripChars_rev_head (cs : List Char) :
    ∀ x ∈ (pyStripChars cs).reverse.head?, pyIsWs x = false := by
  rw [pyStripChars, List.reverse_reverse]
  exact dropWhile_head_not pyIsWs _

theorem pyStripChars_of_stripped (cs : List Char)
    (h1 : ∀ x ∈ cs.head?, pyIsWs x = false)
    (h2 : ∀ x ∈ cs.reverse.head?, pyIsWs x = false) :
    pyStripChars cs = cs := by
  rw [pyStripChars, dropWhile_eq_self_of_head pyIsWs cs h1,
    dropWhile_eq_self_of_head pyIsWs cs.reverse h2, List.reverse_reverse]

theorem pyStrip_idem (s : String) : pyStrip (pyStrip s) = pyStrip s := by
  show (⟨pyStripChars (pyStripChars s.data)⟩ : String) = ⟨pyStripChars s.data⟩
  rw [pyStripChars_of_stripped (pyStripChars s.data)
    (pyStripChars_head s.data) (pyStripChars_rev_head s.data)]

theorem read_fba_ids_eq_firstDedup (df : DF) :
    read_fba_ids_from_split_xlsx df = firstDedup (rawFbaIds df) := by
  simp only [read_fba_ids_from_split_xlsx.eq_def, rawFbaIds.eq_def]
  rcases h : chooseRefCol (List.map pyStrip df.cols) with _ | cand
  · rfl
  · rfl

/-- Claim C10: `read_fba_ids_from_split_xlsx` returns only uppercased
values of whitespace-trimmed cells containing the substring "FBA", with
duplicates removed while preserving first-occurrence order, and it returns
the empty list (rather than raising) when no Reference-ID-like column can be
found. -/
theorem claim_C10 (df : DF) :
    (chooseRefCol (df.cols.map pyStrip) = none
      → read_fba_ids_from_split_xlsx df = [])
    ∧ (∀ x ∈ read_fba_ids_from_split_xlsx df,
        subStrB "FBA" x = true ∧ ∃ s : String, x = pyUpper s ∧ pyStrip s = s)
    ∧ (read_fba_ids_from_split_xlsx df).Nodup
    ∧ (read_fba_ids_from_split_xlsx df).Sublist (rawFbaIds df)
    ∧ (∀ x, x ∈ read_fba_ids_from_split_xlsx df ↔ x ∈ rawFbaIds df)
    ∧ read_fba_ids_from_split_xlsx df = firstDedup (rawFbaIds df) := by
  refine ⟨?_, ?_, ?_, ?_, ?_, read_fba_ids_eq_firstDedup df⟩
  · intro h
    simp only [read_fba_ids_from_split_xlsx.eq_def]
    rw [show chooseRefCol (List.map pyStrip df.cols) = none from h]
  · intro x hx
    rw [read_fba_ids_eq_firstDedup df] at hx
    rw [mem_firstDedup] at hx
    rw [rawFbaIds.eq_def] at hx
    rcases hcol : chooseRefCol (df.cols.map pyStrip) with _ | cand
    · rw [hcol] at hx
      exact absurd hx (List.not_mem_nil x)
    · rw [hcol] at hx
      rcases List.mem_filterMap.mp hx with ⟨r, _, heq⟩
      simp only at heq
      by_cases hs : pyStrip (match rowGet r cand with
          | .none_ => ""
          | v => pvalStr v) = ""
      · rw [if_pos hs] at heq
        exact absurd heq (by simp)
      · rw [if_neg hs] at heq
        by_cases hf : subStrB "FBA" (pyUpper (pyStrip (match rowGet r cand with
            | .none_ => ""
            | v => pvalStr v))) = true
        · rw [if_pos hf] at heq
          injection heq with heq
          subst heq
          refine ⟨hf, pyStrip (match rowGet r cand with
            | .none_ => ""
            | v => pvalStr v), rfl, pyStrip_idem _⟩
        · rw [if_neg hf] at heq
          exact absurd heq (by simp)
  · rw [read_fba_ids_eq_firstDedup df]
    exact firstDedup_nodup _
  · rw [read_fba_ids_eq_firstDedup df]
    exact firstDedup_sublist _
  · intro x
    rw [read_fba_ids_eq_firstDedup df]
    exact mem_firstDedup x _
  
/-- Witness for claim C10 at concrete sheets: a sheet without a
Reference-ID-like column yields the empty list, and a value read from a
sheet with one is uppercased, trimmed and contains "FBA". -/
theorem claim_C10_witness :
    read_fba_ids_from_split_xlsx ⟨["x"], [[("x", PVal.s "FBA9")]]⟩ = []
    ∧ (subStrB "FBA" "FBA1" = true
        ∧ ∃ s : String, "FBA1" = pyUpper s ∧ pyStrip s = s) :=
  ⟨(claim_C10 ⟨["x"], [[("x", PVal.s "FBA9")]]⟩).1 rfl,
   (claim_C10 ⟨["Reference ID"], [[("Reference ID", PVal.s " fba1 ")]]⟩).2.1
     "FBA1" (by decide)⟩

/-! ## Claim C7 -/

theorem findSome?_some_imp {α β : Type _} (f : α → Option β) (l : List α)
    (v : β) (h : l.findSome? f = some v) : ∃ a ∈ l, f a = some v := by
  induction l with
  | nil => simp [List.findSome?] at h
  | cons a as ih =>
    rw [List.findSome?_cons] at h
    rcases hf : f a with _ | w
    · rw [hf] at h
      rcases ih h with ⟨b, hb, hfb⟩
      exact ⟨b, List.mem_cons_of_mem _ hb, hfb⟩
    · rw [hf] at h
      injection h with h
      subst h
      exact ⟨a, List.mem_cons_self a as, hf⟩

theorem qtyStepB_pos (r : List (String × PVal)) (sq sb : List String) (v : Int)
    (h : qtyStepB r sq sb = some v) : 0 < v := by
  rw [qtyStepB] at h
  rcases findSome?_some_imp _ _ _ h with ⟨p, _, hp⟩
  rcases h1 : pyToIntTrunc (rowGet r p.1) with _ | s0 <;> rw [h1] at hp
  · exact absurd hp (by simp)
  · rcases h2 : pyToIntTrunc (rowGet r p.2) with _ | b0 <;> rw [h2] at hp
    · exact absurd hp (by simp)
    · simp only at hp
      by_cases hc : b0 ≠ 0 ∧ pyCeilDiv s0 b0 > 0
      · rw [if_pos hc] at hp
        injection hp with hp
        subst hp
        exact hc.2
      · rw [if_neg hc] at hp
        exact absurd hp (by simp)

theorem qtyStepB_none_of_empty (r : List (String × PVal))
    (sq sb : List String) (h : sq = [] ∨ sb = []) :
    qtyStepB r sq sb = none := by
  rw [qtyStepB]
  rcases h with h | h
  · subst h
    rfl
  · subst h
    have : sq.flatMap (fun s => ([] : List String).map (fun b => (s, b))) = [] := by
      simp
    rw [this]
    rfl

/-- Claim C7 (amended): the per-row carton-count fallback of the label
sub-flow equals the claim's four-step chain with step (c) corrected: instead
of taking the first plausible POSITIVE integer among the adjacent columns,
the code stops at the first PARSEABLE adjacent value whatever its sign, and
a non-positive value then falls to the hard default 1.  The claim's two
concrete scenarios hold: a valid direct carton count (3) wins over a
different computable ratio, and ship-quantity 120 with units-per-carton 25
and no direct value resolves to ceil(120/25) = 5. -/
theorem claim_C7 :
    (∀ (cols : List String) (r : List (String × PVal)) (qty_col : Option String)
      (ship_qty_cols single_box_cols : List String) (id_col : String),
      resolveCartonQty cols r qty_col ship_qty_cols single_box_cols id_col
        = amendedResolveCartonQty cols r qty_col ship_qty_cols single_box_cols id_col)
    ∧ resolveCartonQty ["id", "qty", "ship", "box"]
        [("id", PVal.s "F"), ("qty", PVal.n 3), ("ship", PVal.n 120), ("box", PVal.n 25)]
        (some "qty") ["ship"] ["box"] "id" = 3
    ∧ resolveCartonQty ["id", "ship", "box"]
        [("id", PVal.s "F"), ("ship", PVal.n 120), ("box", PVal.n 25)]
        none ["ship"] ["box"] "id" = 5 := by
  refine ⟨?_, by decide, by decide⟩
  intro cols r qty_col sq sb id_col
  have hbemp : sq = [] ∨ sb = [] → qtyStepB r sq sb = none :=
    qtyStepB_none_of_empty r sq sb
  simp only [resolveCartonQty, amendedResolveCartonQty]
  rcases ha : qtyStepA r qty_col with _ | v <;>
    rcases hb : qtyStepB r sq sb with _ | w <;>
      rcases hc : qtyStepC cols r id_col with _ | u <;>
        by_cases hs : sq ≠ [] ∧ sb ≠ []
  all_goals
    try (exfalso
         have hor : sq = [] ∨ sb = [] := by tauto
         have hnone := hbemp hor
         rw [hb] at hnone
         exact Option.noConfusion hnone)
  all_goals
    try (have hw : 0 < w := qtyStepB_pos r sq sb w hb)
  all_goals
    first
      | simp [posQty, hs.1, hs.2]
      | simp [posQty, hs]
      | simp [posQty]
      | skip
  all_goals try omega
  all_goals try (split_ifs <;> try simp <;> try omega)
  all_goals try (simp_all
                 try omega)
  all_goals try omega

/-- Counterexample to claim C7 as stated: the identifier column sits between
a column holding 7 and a column holding 0.  The claim's step (c) would skip
the non-positive 0 at offset +1 and return the 7 at offset -1; the code
stops at the parseable 0 and the default 1 applies, so the resolved carton
count is 1, not 7. -/
theorem claim_C7_counterexample :
    resolveCartonQty ["left", "id", "right"]
        [("left", PVal.n 7), ("id", PVal.s "FBAX"), ("right", PVal.n 0)]
        none [] [] "id" = 1
    ∧ claimResolveCartonQty ["left", "id", "right"]
        [("left", PVal.n 7), ("id", PVal.s "FBAX"), ("right", PVal.n 0)]
        none [] [] "id" = 7
    ∧ (1 : Int) ≠ 7 := by
  refine ⟨by decide, by decide, by decide⟩

/-! ## Claims C3 and C4 -/

theorem set_append_len {α : Type _} (l : List α) (x v : α) :
    (l ++ [x]).set l.length v = l ++ [v] := by
  induction l with
  | nil => rfl
  | cons a as ih => simp [List.set, ih]

theorem foldl_setRowCell_range (f : Nat → PVal) (m : Nat) :
    (List.range m).foldl (fun row c => setRowCell row (c + 1) (f c)) []
      = (List.range m).map f := by
  induction m with
  | zero => rfl
  | succ m ih =>
    rw [List.range_succ, List.foldl_append, List.map_append, ih]
    simp only [List.foldl_cons, List.foldl_nil]
    rw [setRowCell, padTo]
    have hlen : (List.map f (List.range m)).length = m := by simp
    rw [hlen]
    have hrep : m + 1 - m = 1 := by omega
    rw [hrep]
    show (List.map f (List.range m) ++ [PVal.none_]).set m (f m) = _
    calc (List.map f (List.range m) ++ [PVal.none_]).set m (f m)
        = (List.map f (List.range m) ++ [PVal.none_]).set
            (List.map f (List.range m)).length (f m) := by rw [hlen]
      _ = List.map f (List.range m) ++ [f m] := set_append_len _ _ _

theorem cloneRow_eq (tmpl : List PVal) (delta maxCol : Nat) :
    cloneRow tmpl delta maxCol
      = (List.range maxCol).map (fun c => cloneValue (tmpl.getD c PVal.none_) delta) :=
  foldl_setRowCell_range (fun c => cloneValue (tmpl.getD c PVal.none_) delta) maxCol

theorem preRowsOf_eq (ws : Sheet) (tdr : Nat) (h : tdr - 1 ≤ ws.length) :
    preRowsOf ws tdr = ws.take (tdr - 1) := by
  rw [preRowsOf]
  have hlen : (ws.take (tdr - 1)).length = tdr - 1 := by
    rw [List.length_take]
    omega
  rw [hlen]
  simp

/-- Claim C3: for any N ≥ 0 data rows, `rebuild_main_sheet_with_data`
leaves the sheet with its rows before the template data row unchanged,
followed by exactly N cloned data rows and exactly 1 total row starting at
the template data-row position; for N = 0 only the rows before the template
data row (the header, for the default template position 2) remain. -/
theorem claim_C3 (ws : Sheet) (data_rows : List DataRow) (pd : String)
    (tdr ttr : Nat) (h1 : 1 ≤ tdr) (h2 : tdr ≤ ws.length) :
    (data_rows = [] →
      rebuild_main_sheet_with_data ws data_rows pd tdr ttr = ws.take (tdr - 1))
    ∧ (data_rows ≠ [] →
      (rebuild_main_sheet_with_data ws data_rows pd tdr ttr).length
          = (tdr - 1) + data_rows.length + 1
      ∧ (rebuild_main_sheet_with_data ws data_rows pd tdr ttr).take (tdr - 1)
          = ws.take (tdr - 1)
      ∧ (rebuild_main_sheet_with_data ws data_rows pd tdr ttr).drop (tdr - 1)
          = data_rows.enum.map
              (fun p => dataRowContent (tmplCellsOf ws tdr)
                (headersOf ws data_rows.length tdr) pd p.2 p.1 (maxColOf ws))
            ++ [totalRowContent tdr data_rows.length (maxColOf ws)]) := by
  have hle : tdr - 1 ≤ ws.length := by omega
  have hwslen : (ws.take (tdr - 1)).length = tdr - 1 := by
    rw [List.length_take]
    omega
  constructor
  · intro h
    subst h
    rw [rebuild_main_sheet_with_data]
    simp
  · intro hne
    have hn : data_rows.length ≠ 0 := by
      intro hc
      exact hne (List.length_eq_zero.mp hc)
    rw [rebuild_main_sheet_with_data]
    simp only [hn, if_false]
    rw [preRowsOf_eq ws tdr hle]
    refine ⟨?_, ?_, ?_⟩
    · simp only [List.length_append, List.length_map, List.length_cons,
        List.length_nil, hwslen, List.enum_length]
    · rw [List.append_assoc]
      exact List.take_left' hwslen
    · rw [List.append_assoc]
      exact List.drop_left' hwslen

/-- Witness for claim C3 at a concrete 4-row template sheet with one data
row. -/
theorem claim_C3_witness :
    (rebuild_main_sheet_with_data
      [[PVal.s "预计提货日期"], [PVal.s "=A2"], [PVal.none_], [PVal.s "合计"]]
      [{ opOwner := PVal.none_, account := PVal.none_, FNSKU_UPC := PVal.none_,
         SKU := PVal.none_, prodName := PVal.none_, shipQty := PVal.none_,
         unitsPerCarton := none, channel := PVal.none_, shipFrom := PVal.none_,
         FBAID := "", ReferenceID := "", destWarehouse := PVal.none_,
         warehouseCode := PVal.none_, factoryAddress := "" }] "d" 2 4).length
      = (2 - 1) + 1 + 1 :=
  ((claim_C3
    [[PVal.s "预计提货日期"], [PVal.s "=A2"], [PVal.none_], [PVal.s "合计"]]
    [{ opOwner := PVal.none_, account := PVal.none_, FNSKU_UPC := PVal.none_,
       SKU := PVal.none_, prodName := PVal.none_, shipQty := PVal.none_,
       unitsPerCarton := none, channel := PVal.none_, shipFrom := PVal.none_,
       FBAID := "", ReferenceID := "", destWarehouse := PVal.none_,
       warehouseCode := PVal.none_, factoryAddress := "" }] "d" 2 4
    (by decide) (by decide)).2 (by decide)).1

/-- Claim C4: the formula written into each inserted data row is the
template formula with relative row references shifted by the row delta only
— literal text and absolute references are unchanged — and the claim's
concrete instance holds: `=VLOOKUP($E2,match!$A:$F,3,0)` from template row 2
translated to output row 7 (delta 5) is `=VLOOKUP($E7,match!$A:$F,3,0)`.
The clone loop gives formula cells `translate_formula` of the template text
and clears every other cell. -/
theorem claim_C4 :
    translate_formula "=VLOOKUP($E2,match!$A:$F,3,0)" 5
        = "=VLOOKUP($E7,match!$A:$F,3,0)"
    ∧ (∀ (f : String) (d : Nat),
        translate_formula f d = renderToks ((tokenizeFormula f).map (shiftTok d)))
    ∧ (∀ (d : Nat) (ca : Bool) (col : List Char) (r : Nat),
        shiftTok d (FTok.ref ca col true r) = FTok.ref ca col true r)
    ∧ (∀ (d : Nat) (ca : Bool) (col : List Char) (r : Nat),
        shiftTok d (FTok.ref ca col false r) = FTok.ref ca col false (r + d))
    ∧ (∀ (d : Nat) (cs : List Char), shiftTok d (FTok.lit cs) = FTok.lit cs)
    ∧ (∀ (f : String) (i : Nat), isPreB ['='] f.data = true →
        cloneValue (PVal.s f) i = PVal.s (translate_formula f i))
    ∧ (∀ (tmpl : List PVal) (i maxCol : Nat),
        cloneRow tmpl i maxCol
          = (List.range maxCol).map (fun c => cloneValue (tmpl.getD c PVal.none_) i)) := by
  refine ⟨by decide, fun f d => rfl, fun d ca col r => rfl, fun d ca col r => rfl,
    fun d cs => rfl, ?_, fun tmpl i maxCol => cloneRow_eq tmpl i maxCol⟩
  intro f i h
  rw [cloneValue]
  rw [if_pos h]

/-- Witness for claim C4: a template formula cell is cloned as its
translation. -/
theorem claim_C4_witness :
    cloneValue (PVal.s "=A2+3") 5 = PVal.s (translate_formula "=A2+3" 5) :=
  claim_C4.2.2.2.2.2.1 "=A2+3" 5 (by decide)

/-! ## Claim C8 -/

theorem isPreB_iff {α : Type _} [DecidableEq α] (n h : List α) :
    isPreB n h = true ↔ n <+: h := by
  induction n generalizing h with
  | nil => simp [isPreB]
  | cons a as ih =>
    cases h with
    | nil => simp [isPreB]
    | cons b bs => simp [isPreB, List.cons_prefix_cons, ih]

theorem isInfB_iff {α : Type _} [DecidableEq α] (n h : List α) :
    isInfB n h = true ↔ n <:+: h := by
  induction h with
  | nil => simp [isInfB, isPreB_iff]
  | cons b bs ih => simp [isInfB, isPreB_iff, ih, List.infix_cons_iff]

theorem infix_dropWhile_of_nonWs {n cs : List Char}
    (hn : ∀ c ∈ n, pyIsWs c = false) (hne : n ≠ [])
    (h : n <:+: cs) : n <:+: cs.dropWhile pyIsWs := by
  induction cs with
  | nil => simpa using h
  | cons c cs ih =>
    rw [List.dropWhile_cons]
    by_cases hc : pyIsWs c = true
    · rw [if_pos hc]
      rcases List.infix_cons_iff.mp h with hp | hi
      · exfalso
        cases n with
        | nil => exact hne rfl
        | cons a as =>
          rcases List.cons_prefix_cons.mp hp with ⟨hab, _⟩
          have hfa := hn a (by simp)
          rw [hab] at hfa
          rw [hfa] at hc
          exact Bool.noConfusion hc
      · exact ih hi
    · rw [if_neg hc]
      exact h

theorem infix_pyStripChars {n cs : List Char}
    (hn : ∀ c ∈ n, pyIsWs c = false) (hne : n ≠ [])
    (h : n <:+: cs) : n <:+: pyStripChars cs := by
  rw [pyStripChars]
  have h1 : n <:+: cs.dropWhile pyIsWs := infix_dropWhile_of_nonWs hn hne h
  have h1r : n.reverse <:+: (cs.dropWhile pyIsWs).reverse :=
    List.reverse_infix.mpr h1
  have hnr : ∀ c ∈ n.reverse, pyIsWs c = false :=
    fun c hcm => hn c (List.mem_reverse.mp hcm)
  have hner : n.reverse ≠ [] := fun hcon => hne (by simpa using hcon)
  have h2 : n.reverse <:+: ((cs.dropWhile pyIsWs).reverse).dropWhile pyIsWs :=
    infix_dropWhile_of_nonWs hnr hner h1r
  have h3 := List.reverse_infix.mpr h2
  simpa using h3

theorem norm_id_value_fba (v : String) (h : subStrB "FBA" v = true) :
    norm_id_value (PVal.s v) = pyStrip v ∧ subStrB "FBA" (pyStrip v) = true := by
  have hinf : ("FBA".data : List Char) <:+: v.data := (isInfB_iff _ _).mp h
  have hn : ∀ c ∈ ("FBA".data : List Char), pyIsWs c = false := by decide
  have hinfs : ("FBA".data : List Char) <:+: pyStripChars v.data :=
    infix_pyStripChars hn (by decide) hinf
  have hsub : subStrB "FBA" (pyStrip v) = true := by
    rw [subStrB]
    exact (isInfB_iff _ _).mpr hinfs
  refine ⟨?_, hsub⟩
  have hnil : pyStrip v ≠ "" := by
    intro hcon
    have hdat : pyStripChars v.data = ([] : List Char) := congrArg String.data hcon
    rw [hdat] at hinfs
    have h0 := List.sublist_nil.mp hinfs.sublist
    exact absurd h0 (by decide)
  have hnan : pyLower (pyStrip v) ≠ "nan" := by
    intro hcon
    have hlen : (pyStrip v).data.length = 3 := by
      have hl := congrArg (fun s => s.data.length) hcon
      simpa [pyLower] using hl
    have hlen' : (pyStripChars v.data).length = 3 := hlen
    have heq : ("FBA".data : List Char) = (pyStrip v).data :=
      hinfs.sublist.eq_of_length (by rw [hlen']; rfl)
    have hsv : pyStrip v = "FBA" := string_eq_of_data heq.symm
    rw [hsv] at hcon
    exact absurd hcon (by decide)
  show (if pyStrip v = "" ∨ pyLower (pyStrip v) = "nan" then "" else pyStrip v)
      = pyStrip v
  rw [if_neg]
  intro hcon
  rcases hcon with hc | hc
  · exact hnil hc
  · exact hnan hc

/-- Claim C8: in every produced per-supplier workbook the data column headed
"Reference ID" is populated from the input's FBA-shipment-number column
(header FBA货件编号 / FBA ID / FBA货件ID / FBA货件号, matched exactly via
`find_col_exact`); an input cell value containing the substring "FBA"
survives `norm_id_value` with the substring intact (so such rows carry a
value containing "FBA" in the output); and the label collaborator's column
chooser picks exactly the "Reference ID" column when it is present and no
other exact Reference-ID candidate is. -/
theorem claim_C8 (df : DF) (sku_cfg_df : List SkuCfgRow)
    (sku_factory_short factory_name_to_addr : List (String × String))
    (supplier_value : Option String) :
    ((build_data_rows_from_file1 df sku_cfg_df sku_factory_short
        factory_name_to_addr supplier_value).map (fun d => d.ReferenceID)
      = df.rows.map (fun r =>
          match find_col_exact df.cols ["FBA货件编号", "FBA ID", "FBA货件ID", "FBA货件号"] with
          | some fc => norm_id_value (rowGet r fc)
          | none => ""))
    ∧ (∀ v : String, subStrB "FBA" v = true →
        norm_id_value (PVal.s v) = pyStrip v ∧ subStrB "FBA" (pyStrip v) = true)
    ∧ (∀ cols : List String, "Reference ID" ∈ cols →
        (∀ c ∈ cols, c ∈ refIdCandExact → c = "Reference ID") →
        chooseRefCol cols = some "Reference ID") := by
  refine ⟨?_, fun v hv => norm_id_value_fba v hv, ?_⟩
  · rw [build_data_rows_from_file1.eq_def, List.map_map]
    apply List.map_congr_left
    intro r _
    rfl
  · intro cols hmem honly
    rw [chooseRefCol]
    rcases hf : cols.find? (fun c => refIdCandExact.contains c) with _ | c0
    · exfalso
      have hnp := List.find?_eq_none.mp hf "Reference ID" hmem
      exact hnp (by decide)
    · have hc0 : c0 ∈ cols := List.mem_of_find?_eq_some hf
      have hp : refIdCandExact.contains c0 = true := List.find?_some hf
      have hc0cand : c0 ∈ refIdCandExact := by simpa using hp
      rw [honly c0 hc0 hc0cand]

/-- Witness for claim C8: a concrete padded FBA shipment number survives
normalization with "FBA" intact, and the chooser picks the "Reference ID"
column of a concrete header list. -/
theorem claim_C8_witness :
    norm_id_value (PVal.s " FBA15G8NKQ2 ") = pyStrip " FBA15G8NKQ2 "
    ∧ subStrB "FBA" (pyStrip " FBA15G8NKQ2 ") = true
    ∧ chooseRefCol ["运营", "Reference ID", "FBA货件编号"] = some "Reference ID" :=
  ⟨((claim_C8 ⟨[], []⟩ [] [] [] none).2.1 " FBA15G8NKQ2 " (by decide)).1,
   ((claim_C8 ⟨[], []⟩ [] [] [] none).2.1 " FBA15G8NKQ2 " (by decide)).2,
   (claim_C8 ⟨[], []⟩ [] [] [] none).2.2 ["运营", "Reference ID", "FBA货件编号"]
     (by decide) (by decide)⟩

end PickupSplitter
